import Mathlib

/-!
Verification development for the Pending Op State Machine
(`packages/runtime/container-runtime/src/pendingStateManager.ts`).

The TypeScript class `PendingStateManager` is embedded as pure functions over
an explicit state record.  Fallible code (the `assert` calls from
`@fluidframework/common-utils`, which throw on failure, and `throw new Error`)
is modelled with the result type `MRes` below, whose `error` constructor
carries the state at the moment of the throw (TypeScript mutations made before
a throw persist).  `runtime.closeFn(error)` does not throw; it is modelled as
appending a `close` event to the runtime's event log, mirroring the DataCorruptionError
fields the source passes.  Opaque `content` values are modelled as `Nat`,
opaque `localOpMetadata` values as `Nat`, and `opMetadata` records as
`Option Nat` (`none` = `undefined`).
-/

/-- `FlushMode` from `@fluidframework/runtime-definitions`. -/
inductive FlushMode where
  | Automatic
  | Manual
deriving DecidableEq, Repr

/-- The fields of `ISequencedDocumentMessage` that the source inspects.
`clientId` is `string | null` in the protocol; `none` models `null`.
`batchMetadata` models `message.metadata?.batch` (`none` = absent).
The source compares `pendingBatchBeginMessage === message` by reference;
here messages are values and the comparison is structural, which agrees with
reference equality whenever distinct acks differ in some field (distinct acks
always carry distinct `sequenceNumber`s). -/
structure ISequencedDocumentMessage where
  msgType : String
  clientId : Option String
  clientSequenceNumber : Int
  sequenceNumber : Int
  batchMetadata : Option Bool
deriving DecidableEq, Repr

/-- `IPendingMessage` minus its literal `type: "message"` tag (the tag is the
constructor of `IPendingState` below). -/
structure IPendingMessage where
  messageType : String
  clientSequenceNumber : Int
  referenceSequenceNumber : Int
  content : Nat
  localOpMetadata : Nat
  opMetadata : Option Nat
deriving DecidableEq, Repr

/-- The tagged union `IPendingState = IPendingMessage | IPendingFlushMode | IPendingFlush`. -/
inductive IPendingState where
  | message (m : IPendingMessage)
  | flushMode (flushMode : FlushMode)
  | flush
deriving DecidableEq, Repr

/-- `IPendingLocalState`: the serialized pending state handed across sessions. -/
structure IPendingLocalState where
  clientId : Option String
  pendingStates : List IPendingState
deriving DecidableEq, Repr

/-- Observable calls made on the container runtime and the rebase adapter.
`close` records the fields of the `DataCorruptionError` passed to `closeFn`. -/
inductive RuntimeEvent where
  | reSubmit (messageType : String) (content : Nat) (localOpMetadata : Nat)
      (opMetadata : Option Nat)
  | setFlushMode (mode : FlushMode)
  | flush
  | rebase (content : Nat) (localOpMetadata : Nat)
  | close (clientId : Option String) (sequenceNumber : Int)
      (clientSequenceNumber : Int) (expectedClientSequenceNumber : Int)
deriving DecidableEq, Repr

/-- Modelled from the spec: the narrow `ContainerRuntime` capability interface
of section 6.1 (`containerRuntime.ts` is not part of the provided sources).
`connected`, `clientId` and `flushMode` are the values the core reads;
`events` logs every hook invocation the core makes (`reSubmit`, `setFlushMode`,
`flush`, `rebase`, `close`); `nextClientSequenceNumber` and
`referenceSequenceNumber` model the opaque monotonic CSN generator and the
latest observed sequence number used when a submission (re-)enters the core. -/
structure RuntimeModel where
  connected : Bool
  clientId : Option String
  flushMode : FlushMode
  nextClientSequenceNumber : Int
  referenceSequenceNumber : Int
  events : List RuntimeEvent
deriving DecidableEq, Repr

/-- The state of `PendingStateManager`: its two deques (lists with head =
front of the deque), the rehydration metadata, the unacked-message counter,
the batch tracker, the session client id, and the attached runtime model. -/
structure PendingStateManager where
  pendingStates : List IPendingState
  initialStates : List IPendingState
  initialClientId : Option String
  initialClientSeqNum : Int
  pendingMessagesCount : Int
  isProcessingBatch : Bool
  pendingBatchBeginMessage : Option ISequencedDocumentMessage
  clientId : Option String
  containerRuntime : RuntimeModel
deriving DecidableEq, Repr

/-- Result of a state-machine call: `ok` on normal return, `error` when an
`assert` fails or an `Error` is thrown.  Both carry the state reached. -/
inductive MRes (α : Type) where
  | ok (value : α) (state : PendingStateManager)
  | error (msg : String) (state : PendingStateManager)
deriving DecidableEq, Repr

/-- Return shape of `processMessage`. -/
structure ProcessResult where
  localAck : Bool
  localOpMetadata : Option Nat
deriving DecidableEq, Repr

/-- Modelled from the spec: `ContainerMessageType.ChunkedOp` (the enum lives in
`containerRuntime.ts`, not in the provided sources; the spec says the special
case is keyed on the message `type` string). -/
def chunkedOpType : String := "chunkedOp"

/-- Assert message of `peekNextPendingState`. -/
def msgNoPendingState : String := "No pending state found for the remote message"

/-- Assert message of `processPendingLocalMessage`. -/
def msgNoPendingMessage : String := "No pending message found for this remote message"

/-- Assert message of `maybeProcessBatchBegin` (flush mode check). -/
def msgBeginManual : String := "Flush mode should be manual when processing batch begin"

/-- Assert message of `maybeProcessBatchBegin` (already-in-batch check). -/
def msgAlreadyInBatch : String := "The pending batch state indicates we are already processing a batch"

/-- Assert message of `maybeProcessBatchEnd` (flush mode check). -/
def msgEndAutomatic : String := "Flush mode is set to Manual in the middle of processing a batch"

/-- Assert message of `maybeProcessBatchEnd` (missing batch begin). -/
def msgNoBatchBegin : String := "There is no pending batch begin message"

/-- Assert message of `maybeProcessBatchEnd` (single-message batch). -/
def msgSingleMeta : String := "Batch with single message should not have batch metadata"

/-- Assert message of `maybeProcessBatchEnd` (missing begin metadata). -/
def msgNoBeginMeta : String := "Did not receive batch begin metadata"

/-- Assert message of `maybeProcessBatchEnd` (missing end metadata). -/
def msgNoEndMeta : String := "Did not receive batch end metadata"

/-- Error thrown by `processRemoteMessage` when the snapshot is too recent. -/
def msgTooRecent : String := "loaded from snapshot too recent to rebase pending initial ops"

/-- Assert message of `replayPendingStates` (connection check). -/
def msgNotConnected : String := "The connection state is not consistent with the runtime"

/-- Assert message of `replayPendingStates` (double replay check). -/
def msgDoubleReplay : String := "replayPendingStates called twice for same clientId!"

/-- Message for `pendingStates.shift()!` evaluating on an empty deque inside
the replay loop (the non-null assertion fails). -/
def msgShiftEmpty : String := "shift from empty pending queue"

/-- The constructor's scan for the client sequence number of the first entry
of type `"message"` in the initial states (`-1` when there is none). -/
def firstMessageCsn : List IPendingState → Int
  | [] => -1
  | IPendingState.message m :: _ => m.clientSequenceNumber
  | _ :: rest => firstMessageCsn rest

/-- The `PendingStateManager` constructor: copies `initialState?.pendingStates`
and `initialState?.clientId`, computes `initialClientSeqNum`. -/
def initPendingStateManager (containerRuntime : RuntimeModel)
    (initialState : Option IPendingLocalState) : PendingStateManager :=
  let initialStates := match initialState with
    | some st => st.pendingStates
    | none => []
  { pendingStates := []
    initialStates := initialStates
    initialClientId := match initialState with
      | some st => st.clientId
      | none => none
    initialClientSeqNum := firstMessageCsn initialStates
    pendingMessagesCount := 0
    isProcessingBatch := false
    pendingBatchBeginMessage := none
    clientId := none
    containerRuntime := containerRuntime }

/-- `hasPendingMessages()`. -/
def hasPendingMessages (s : PendingStateManager) : Bool :=
  s.pendingMessagesCount ≠ 0

/-- `getLocalState()`: the serialized pending state, or `undefined` when
there are no pending messages. -/
def getLocalState (s : PendingStateManager) : Option IPendingLocalState :=
  if hasPendingMessages s then
    some { clientId := s.clientId, pendingStates := s.pendingStates }
  else
    none

/-- `onSubmitMessage(type, clientSequenceNumber, referenceSequenceNumber,
content, localOpMetadata, opMetadata)`: push the message, bump the counter. -/
def onSubmitMessage (type : String) (clientSequenceNumber : Int)
    (referenceSequenceNumber : Int) (content : Nat) (localOpMetadata : Nat)
    (opMetadata : Option Nat) (s : PendingStateManager) : PendingStateManager :=
  { s with
    pendingStates := s.pendingStates ++
      [IPendingState.message
        { messageType := type
          clientSequenceNumber := clientSequenceNumber
          referenceSequenceNumber := referenceSequenceNumber
          content := content
          localOpMetadata := localOpMetadata
          opMetadata := opMetadata }]
    pendingMessagesCount := s.pendingMessagesCount + 1 }

/-- `onFlushModeUpdated(flushMode)`.  For `Automatic`, a trailing `flush`
entry is replaced by the new `flushMode` entry, and a trailing
`flushMode: Manual` entry is removed with nothing pushed; otherwise the new
`flushMode` entry is pushed.  (In the source both conditionals test the same
`previousState`, so the two pop branches are mutually exclusive.) -/
def onFlushModeUpdated (flushMode : FlushMode) (s : PendingStateManager) :
    PendingStateManager :=
  if flushMode = FlushMode.Automatic then
    match s.pendingStates.getLast? with
    | some IPendingState.flush =>
        { s with pendingStates := s.pendingStates.dropLast ++ [IPendingState.flushMode FlushMode.Automatic] }
    | some (IPendingState.flushMode FlushMode.Manual) =>
        { s with pendingStates := s.pendingStates.dropLast }
    | _ =>
        { s with pendingStates := s.pendingStates ++ [IPendingState.flushMode flushMode] }
  else
    { s with pendingStates := s.pendingStates ++ [IPendingState.flushMode flushMode] }

/-- `onFlush()`: no-op when the runtime flush mode is `Automatic` or the last
pending state is not a message; otherwise push a `flush` entry. -/
def onFlush (s : PendingStateManager) : PendingStateManager :=
  if s.containerRuntime.flushMode = FlushMode.Automatic then s
  else
    match s.pendingStates.getLast? with
    | some (IPendingState.message _) =>
        { s with pendingStates := s.pendingStates ++ [IPendingState.flush] }
    | _ => s

/-- `peekNextPendingState()`: the head of the pending queue; asserts it exists. -/
def peekNextPendingState (s : PendingStateManager) : MRes IPendingState :=
  match s.pendingStates.head? with
  | some st => MRes.ok st s
  | none => MRes.error msgNoPendingState s

/-- The body of `maybeProcessBatchBegin` once the head was found to be a
`flush` or `flushMode` entry: assert the batch tracker is clear, record the
batch begin message, and shift the marker. -/
def batchBeginCore (message : ISequencedDocumentMessage)
    (s : PendingStateManager) : MRes Unit :=
  if s.isProcessingBatch ∨ s.pendingBatchBeginMessage.isSome then
    MRes.error msgAlreadyInBatch s
  else
    MRes.ok ()
      { s with
        pendingBatchBeginMessage := some message
        isProcessingBatch := true
        pendingStates := s.pendingStates.tail }

/-- `maybeProcessBatchBegin(message)`. -/
def maybeProcessBatchBegin (message : ISequencedDocumentMessage)
    (s : PendingStateManager) : MRes Unit :=
  match peekNextPendingState s with
  | MRes.error e s' => MRes.error e s'
  | MRes.ok pendingState s1 =>
    match pendingState with
    | IPendingState.message _ => MRes.ok () s1
    | IPendingState.flushMode fm =>
        if fm ≠ FlushMode.Manual then MRes.error msgBeginManual s1
        else batchBeginCore message s1
    | IPendingState.flush => batchBeginCore message s1

/-- Clear the batch tracker at the end of `maybeProcessBatchEnd`. -/
def clearBatch (s : PendingStateManager) : MRes Unit :=
  MRes.ok () { s with pendingBatchBeginMessage := none, isProcessingBatch := false }

/-- The metadata checks of `maybeProcessBatchEnd` (after the optional
`flushMode: Automatic` entry has been shifted). -/
def batchEndCore (message : ISequencedDocumentMessage)
    (s : PendingStateManager) : MRes Unit :=
  match s.pendingBatchBeginMessage with
  | none => MRes.error msgNoBatchBegin s
  | some pendingBatchBeginMessage =>
    let batchBeginMetadata := pendingBatchBeginMessage.batchMetadata
    if pendingBatchBeginMessage = message then
      if batchBeginMetadata ≠ none then MRes.error msgSingleMeta s
      else clearBatch s
    else
      if batchBeginMetadata ≠ some true then MRes.error msgNoBeginMeta s
      else if message.batchMetadata ≠ some false then MRes.error msgNoEndMeta s
      else clearBatch s

/-- `maybeProcessBatchEnd(message)`.  A `flushMode` head must be `Automatic`
and is shifted; a `flush` head is left in place (it starts the next batch). -/
def maybeProcessBatchEnd (message : ISequencedDocumentMessage)
    (s : PendingStateManager) : MRes Unit :=
  match peekNextPendingState s with
  | MRes.error e s' => MRes.error e s'
  | MRes.ok nextPendingState s1 =>
    match nextPendingState with
    | IPendingState.message _ => MRes.ok () s1
    | IPendingState.flushMode fm =>
        if fm ≠ FlushMode.Automatic then MRes.error msgEndAutomatic s1
        else batchEndCore message { s1 with pendingStates := s1.pendingStates.tail }
    | IPendingState.flush => batchEndCore message s1

/-- `containerRuntime.closeFn(new DataCorruptionError(...))`: record the close
with the four fields the source passes. -/
def closeWithError (message : ISequencedDocumentMessage)
    (expectedClientSequenceNumber : Int) (s : PendingStateManager) :
    PendingStateManager :=
  { s with
    containerRuntime := { s.containerRuntime with
      events := s.containerRuntime.events ++
        [RuntimeEvent.close message.clientId message.sequenceNumber
          message.clientSequenceNumber expectedClientSequenceNumber] } }

/-- The tail of `processPendingLocalMessage` after the batch-begin step: pop
the head (asserting it is a message), verify the client sequence number
(closing the container on mismatch and returning early), decrement the
counter, maybe close the batch, and return the popped message's
`localOpMetadata` (`none` models the `undefined` returned on the corruption
path). -/
def processLocalMatch (message : ISequencedDocumentMessage)
    (s1 : PendingStateManager) : MRes (Option Nat) :=
  match peekNextPendingState s1 with
  | MRes.error e s' => MRes.error e s'
  | MRes.ok pendingState s2 =>
    match pendingState with
    | IPendingState.message pendingMessage =>
      let s3 := { s2 with pendingStates := s2.pendingStates.tail }
      if pendingMessage.clientSequenceNumber ≠ message.clientSequenceNumber then
        MRes.ok none (closeWithError message pendingMessage.clientSequenceNumber s3)
      else
        let s4 := { s3 with pendingMessagesCount := s3.pendingMessagesCount - 1 }
        if s4.isProcessingBatch then
          match maybeProcessBatchEnd message s4 with
          | MRes.error e s' => MRes.error e s'
          | MRes.ok _ s5 => MRes.ok (some pendingMessage.localOpMetadata) s5
        else
          MRes.ok (some pendingMessage.localOpMetadata) s4
    | _ => MRes.error msgNoPendingMessage s2

/-- `processPendingLocalMessage(message)`: maybe open a batch, then match and
pop the head. -/
def processPendingLocalMessage (message : ISequencedDocumentMessage)
    (s : PendingStateManager) : MRes (Option Nat) :=
  match maybeProcessBatchBegin message s with
  | MRes.error e s' => MRes.error e s'
  | MRes.ok _ s1 => processLocalMatch message s1

/-- The source's `===` between the ack's `clientId` (`string | null`) and
`initialClientId` (`string | undefined`): true only when both are the same
string (`null === undefined` is false in JavaScript). -/
def eqClientIds : Option String → Option String → Bool
  | some a, some b => a = b
  | _, _ => false

/-- Record a `rebase(content, localOpMetadata)` adapter call. -/
def addRebaseEvent (pm : IPendingMessage) (s : PendingStateManager) :
    PendingStateManager :=
  { s with
    containerRuntime := { s.containerRuntime with
      events := s.containerRuntime.events ++
        [RuntimeEvent.rebase pm.content pm.localOpMetadata] } }

/-- The `while` loop of `processRemoteMessage` that rebases initial ops up to
and including the ack's sequence number.  The fuel argument starts at the
length of `initialStates`; each iteration shifts one entry, so the fuel is
exact. -/
def processRemoteRebaseLoop (message : ISequencedDocumentMessage) :
    Nat → PendingStateManager → MRes Unit
  | 0, s => MRes.ok () s
  | n + 1, s =>
    match s.initialStates with
    | [] => MRes.ok () s
    | nextState :: restInitial =>
      match nextState with
      | IPendingState.message pm =>
        if pm.referenceSequenceNumber > message.sequenceNumber then
          MRes.ok () s
        else if pm.clientSequenceNumber = s.initialClientSeqNum ∧
            message.sequenceNumber > pm.referenceSequenceNumber then
          MRes.error msgTooRecent s
        else
          let s1 := addRebaseEvent pm s
          processRemoteRebaseLoop message n
            { s1 with
              initialStates := restInitial
              pendingStates := s1.pendingStates ++ [nextState] }
      | _ =>
          processRemoteRebaseLoop message n
            { s with
              initialStates := restInitial
              pendingStates := s.pendingStates ++ [nextState] }

/-- The `while` loop of `processRemoteMessage` that dequeues pending states
until a message is popped (claiming an ack from the prior session), dropping
non-message entries.  Fuel starts at the length of `pendingStates`. -/
def processRemoteDequeueLoop : Nat → PendingStateManager → MRes ProcessResult
  | 0, s => MRes.ok { localAck := false, localOpMetadata := none } s
  | n + 1, s =>
    match s.pendingStates with
    | [] => MRes.ok { localAck := false, localOpMetadata := none } s
    | nextState :: rest =>
      let s1 := { s with pendingStates := rest }
      match nextState with
      | IPendingState.message pm =>
          MRes.ok { localAck := true, localOpMetadata := some pm.localOpMetadata } s1
      | _ => processRemoteDequeueLoop n s1

/-- `processRemoteMessage(message)`: rebase initial ops, then claim the ack if
it comes from the prior session. -/
def processRemoteMessage (message : ISequencedDocumentMessage)
    (s : PendingStateManager) : MRes ProcessResult :=
  match processRemoteRebaseLoop message s.initialStates.length s with
  | MRes.error e s' => MRes.error e s'
  | MRes.ok _ s1 =>
    if eqClientIds message.clientId s1.initialClientId = true ∧
        message.clientSequenceNumber ≥ s1.initialClientSeqNum then
      processRemoteDequeueLoop s1.pendingStates.length s1
    else
      MRes.ok { localAck := false, localOpMetadata := none } s1

/-- `processMessage(message, local)`: skip chunked ops, else dispatch to the
local or remote handler.  Note the source returns `localAck: false` on the
local path (the `localAck: true` results come only from the remote claim
path). -/
def processMessage (message : ISequencedDocumentMessage) (isLocal : Bool)
    (s : PendingStateManager) : MRes ProcessResult :=
  if message.msgType = chunkedOpType then
    MRes.ok { localAck := false, localOpMetadata := none } s
  else if isLocal then
    match processPendingLocalMessage message s with
    | MRes.error e s' => MRes.error e s'
    | MRes.ok meta s1 => MRes.ok { localAck := false, localOpMetadata := meta } s1
  else
    processRemoteMessage message s

/-- Modelled from the spec: the runtime assigns a fresh client sequence number
and the submission re-enters the core through `onSubmitMessage` (spec sections
2 item 1 and 4.1.1). -/
def submitWithFreshCsn (messageType : String) (content : Nat)
    (localOpMetadata : Nat) (opMetadata : Option Nat)
    (s : PendingStateManager) : PendingStateManager :=
  let csn := s.containerRuntime.nextClientSequenceNumber
  let s1 := { s with
    containerRuntime := { s.containerRuntime with
      nextClientSequenceNumber := csn + 1 } }
  onSubmitMessage messageType csn s1.containerRuntime.referenceSequenceNumber
    content localOpMetadata opMetadata s1

/-- Modelled from the spec: `containerRuntime.reSubmitFn(messageType, content,
localOpMetadata, opMetadata)` during replay logs the resubmission and triggers
re-entry through `onSubmit` with a fresh client sequence number (spec section
4.1.7 step 5). -/
def rtReSubmit (pm : IPendingMessage) (s : PendingStateManager) :
    PendingStateManager :=
  submitWithFreshCsn pm.messageType pm.content pm.localOpMetadata pm.opMetadata
    { s with
      containerRuntime := { s.containerRuntime with
        events := s.containerRuntime.events ++
          [RuntimeEvent.reSubmit pm.messageType pm.content pm.localOpMetadata
            pm.opMetadata] } }

/-- Modelled from the spec: `containerRuntime.setFlushMode(mode)` invoked as a
replay dispatch hook records the call and updates the runtime's flush mode.
Spec section 4.1.7 notes re-entry into the core only for `resubmit`, so this
hook does not re-enter `onFlushModeUpdated`. -/
def rtSetFlushMode (mode : FlushMode) (s : PendingStateManager) :
    PendingStateManager :=
  { s with
    containerRuntime := { s.containerRuntime with
      flushMode := mode
      events := s.containerRuntime.events ++ [RuntimeEvent.setFlushMode mode] } }

/-- Modelled from the spec: `containerRuntime.flush()` invoked as a replay
dispatch hook records the call (spec section 4.1.7 step 5). -/
def rtFlush (s : PendingStateManager) : PendingStateManager :=
  { s with
    containerRuntime := { s.containerRuntime with
      events := s.containerRuntime.events ++ [RuntimeEvent.flush] } }

/-- One `switch` dispatch of the replay loop. -/
def dispatchPendingState (ps : IPendingState) (s : PendingStateManager) :
    PendingStateManager :=
  match ps with
  | IPendingState.message pm => rtReSubmit pm s
  | IPendingState.flushMode fm => rtSetFlushMode fm s
  | IPendingState.flush => rtFlush s

/-- The `while (pendingStatesCount > 0)` loop of `replayPendingStates`:
shift the head (the non-null assertion fails on an empty deque) and dispatch
it, exactly `n` times. -/
def replayLoop : Nat → PendingStateManager → MRes Unit
  | 0, s => MRes.ok () s
  | n + 1, s =>
    match s.pendingStates with
    | [] => MRes.error msgShiftEmpty s
    | pendingState :: rest =>
        replayLoop n (dispatchPendingState pendingState { s with pendingStates := rest })

/-- The initial-state drain at the top of `replayPendingStates`: shift every
entry of `initialStates`, rebase the messages, and push everything onto
`pendingStates`.  Fuel starts at the length of `initialStates`. -/
def replayDrainInitial : Nat → PendingStateManager → PendingStateManager
  | 0, s => s
  | n + 1, s =>
    match s.initialStates with
    | [] => s
    | nextMessage :: rest =>
      let s1 := { s with initialStates := rest }
      let s2 := match nextMessage with
        | IPendingState.message pm => addRebaseEvent pm s1
        | _ => s1
      replayDrainInitial n { s2 with pendingStates := s2.pendingStates ++ [nextMessage] }

/-- `replayPendingStates()`: assert connected, refuse a double replay for the
same client id, record the new session client id, drain the initial states,
and dispatch exactly the pre-loop number of pending states, restoring the
saved flush mode afterwards. -/
def replayPendingStates (s : PendingStateManager) : MRes Unit :=
  if s.containerRuntime.connected ≠ true then MRes.error msgNotConnected s
  else if s.clientId = s.containerRuntime.clientId then MRes.error msgDoubleReplay s
  else
    let s1 := { s with clientId := s.containerRuntime.clientId }
    let s2 := replayDrainInitial s1.initialStates.length s1
    let pendingStatesCount := s2.pendingStates.length
    if pendingStatesCount = 0 then MRes.ok () s2
    else
      let s3 := { s2 with pendingMessagesCount := 0 }
      let savedFlushMode := s3.containerRuntime.flushMode
      match replayLoop pendingStatesCount s3 with
      | MRes.error e s' => MRes.error e s'
      | MRes.ok _ s4 => MRes.ok () (rtSetFlushMode savedFlushMode s4)

/-- Modelled from the spec: `ContainerRuntime.setFlushMode` called by the host
forwards to `onFlushModeUpdated` when, and only when, the flush mode actually
changes (the source's comment on `IPendingFlushMode`: the entry is added
"when setFlushMode is called on the ContainerRuntime and the FlushMode
changes"). -/
def hostSetFlushMode (mode : FlushMode) (s : PendingStateManager) :
    PendingStateManager :=
  if s.containerRuntime.flushMode = mode then s
  else onFlushModeUpdated mode
    { s with containerRuntime := { s.containerRuntime with flushMode := mode } }

/-- Modelled from the spec: a host-level `flush()` reaches the core through
`onFlush` (spec section 4.1.3). -/
def hostFlush (s : PendingStateManager) : PendingStateManager :=
  onFlush s

/-- Modelled from the spec: a connection-state change of the container
updates the runtime's `connected` flag and `clientId`. -/
def hostConnect (connected : Bool) (clientId : Option String)
    (s : PendingStateManager) : PendingStateManager :=
  { s with
    containerRuntime := { s.containerRuntime with
      connected := connected
      clientId := clientId } }

/-- A host-level call on the core, used to define reachable states. -/
inductive HostCmd where
  | submit (messageType : String) (content : Nat) (localOpMetadata : Nat)
      (opMetadata : Option Nat)
  | setFlushMode (mode : FlushMode)
  | flush
  | ack (message : ISequencedDocumentMessage) (isLocal : Bool)
  | replay
  | connect (connected : Bool) (clientId : Option String)
deriving DecidableEq, Repr

/-- Run one host command. -/
def runHostCmd : HostCmd → PendingStateManager → MRes Unit
  | HostCmd.submit t c l o, s => MRes.ok () (submitWithFreshCsn t c l o s)
  | HostCmd.setFlushMode m, s => MRes.ok () (hostSetFlushMode m s)
  | HostCmd.flush, s => MRes.ok () (hostFlush s)
  | HostCmd.ack m l, s =>
      (match processMessage m l s with
       | MRes.error e s' => MRes.error e s'
       | MRes.ok _ s' => MRes.ok () s')
  | HostCmd.replay, s => replayPendingStates s
  | HostCmd.connect c cid, s => MRes.ok () (hostConnect c cid s)

/-- Run a list of host commands, stopping at the first thrown error. -/
def runHostCmds : List HostCmd → PendingStateManager → MRes Unit
  | [], s => MRes.ok () s
  | c :: cs, s =>
      match runHostCmd c s with
      | MRes.error e s' => MRes.error e s'
      | MRes.ok _ s' => runHostCmds cs s'

/-- A freshly constructed core with no serialized initial state. -/
def freshPSM (rt : RuntimeModel) : PendingStateManager :=
  initPendingStateManager rt none

/-- Whether a pending state is a `message` entry. -/
def isMessageState : IPendingState → Bool
  | IPendingState.message _ => true
  | _ => false

/-- Number of `message` entries in a list of pending states (as an `Int`, to
compare with `pendingMessagesCount`). -/
def countMessages (l : List IPendingState) : Int :=
  ((l.filter isMessageState).length : Int)

/-- Whether a runtime event is a `close` (data-corruption) call. -/
def isCloseEvent : RuntimeEvent → Bool
  | RuntimeEvent.close _ _ _ _ => true
  | _ => false

/-- True when no `close` call has been recorded. -/
def closeFree (events : List RuntimeEvent) : Bool :=
  events.all (fun e => !isCloseEvent e)

/-- The runtime call that replaying one pending state produces. -/
def dispatchEvent : IPendingState → RuntimeEvent
  | IPendingState.message pm =>
      RuntimeEvent.reSubmit pm.messageType pm.content pm.localOpMetadata pm.opMetadata
  | IPendingState.flushMode fm => RuntimeEvent.setFlushMode fm
  | IPendingState.flush => RuntimeEvent.flush

/-- The rebase calls produced by draining a list of initial states. -/
def rebaseEvents : List IPendingState → List RuntimeEvent
  | [] => []
  | IPendingState.message pm :: rest =>
      RuntimeEvent.rebase pm.content pm.localOpMetadata :: rebaseEvents rest
  | _ :: rest => rebaseEvents rest

/-- Projection of `reSubmit` events to (messageType, content, localOpMetadata),
the fields the round-trip property compares. -/
def resubmittedOps : List RuntimeEvent → List (String × Nat × Nat)
  | [] => []
  | RuntimeEvent.reSubmit t c l _ :: es => (t, c, l) :: resubmittedOps es
  | _ :: es => resubmittedOps es

/-- Projection of `message` entries to (messageType, content, localOpMetadata). -/
def pendingMessageOps : List IPendingState → List (String × Nat × Nat)
  | [] => []
  | IPendingState.message m :: es =>
      (m.messageType, m.content, m.localOpMetadata) :: pendingMessageOps es
  | _ :: es => pendingMessageOps es

/-- The message at the head of the pending queue once a single leading batch
marker has been consumed (the message a local ack is matched against). -/
def localHead (s : PendingStateManager) : Option IPendingMessage :=
  match s.pendingStates with
  | IPendingState.message m :: _ => some m
  | _ :: IPendingState.message m :: _ => some m
  | _ => none

/-- The returned value of a call, when it returned normally. -/
def okValue {α : Type} : MRes α → Option α
  | MRes.ok v _ => some v
  | MRes.error _ _ => none

/-- The state after a call, when it returned normally. -/
def okState {α : Type} : MRes α → Option PendingStateManager
  | MRes.ok _ s => some s
  | MRes.error _ _ => none

/-- The thrown message of a call, when it threw. -/
def errMsg {α : Type} : MRes α → Option String
  | MRes.error e _ => some e
  | MRes.ok _ _ => none

/-- The state at the moment of the throw, when the call threw. -/
def errState {α : Type} : MRes α → Option PendingStateManager
  | MRes.error _ s => some s
  | MRes.ok _ _ => none

/-- A fresh, disconnected runtime in `Automatic` flush mode with an empty
event log, used by the concrete scenarios below. -/
def rtA : RuntimeModel :=
  { connected := false, clientId := none, flushMode := FlushMode.Automatic,
    nextClientSequenceNumber := 0, referenceSequenceNumber := 0, events := [] }

/-- A core that has locally submitted one op (content 5, local metadata 7);
the runtime assigned client sequence number 0. -/
def c1State : PendingStateManager :=
  submitWithFreshCsn "op" 5 7 none (freshPSM rtA)

/-- The pending message created by `c1State`. -/
def c1Msg : IPendingMessage :=
  { messageType := "op", clientSequenceNumber := 0, referenceSequenceNumber := 0,
    content := 5, localOpMetadata := 7, opMetadata := none }

/-- The matching local ack for `c1State`. -/
def c1Ack : ISequencedDocumentMessage :=
  { msgType := "op", clientId := some "c1", clientSequenceNumber := 0,
    sequenceNumber := 10, batchMetadata := none }

/-- C1 counterexample: a local ack that passes every check (the head of
`pending` is a Message with the ack's clientSequenceNumber) makes
`processMessage` return `localAck := false`, not the `localAck: true` the
claim states; the `localOpMetadata` field does carry the popped message's
local metadata. -/
theorem C1_counterexample :
    okValue (processMessage c1Ack true c1State) =
      some { localAck := false, localOpMetadata := some 7 } ∧
    ({ localAck := false, localOpMetadata := some 7 } : ProcessResult).localAck ≠ true := by
  constructor
  · decide
  · decide

/-- C6: during remote ack handling, if the head of the initial queue is a
Message whose clientSequenceNumber equals `initialClientSeqNum` and the ack's
sequenceNumber is strictly greater than that Message's
referenceSequenceNumber, the fatal "snapshot too recent to rebase pending
initial ops" error is thrown, with the state unchanged — in particular no
`rebase` call has been recorded for that Message. -/
theorem C6_theorem (s : PendingStateManager) (ack : ISequencedDocumentMessage)
    (pm : IPendingMessage) (restI : List IPendingState)
    (h1 : s.initialStates = IPendingState.message pm :: restI)
    (h2 : pm.clientSequenceNumber = s.initialClientSeqNum)
    (h3 : ack.sequenceNumber > pm.referenceSequenceNumber)
    (h4 : ack.msgType ≠ chunkedOpType) :
    processMessage ack false s = MRes.error msgTooRecent s := by
  have h5 : ¬ pm.referenceSequenceNumber > ack.sequenceNumber := by omega
  simp [processMessage, h4, processRemoteMessage, h1, processRemoteRebaseLoop,
    h5, h2, h3]

/-- The rehydrated core of scenario S6: the prior session left one pending
Message with csn 1 and reference sequence number 100. -/
def c6Msg : IPendingMessage :=
  { messageType := "op", clientSequenceNumber := 1, referenceSequenceNumber := 100,
    content := 3, localOpMetadata := 4, opMetadata := none }

/-- The rehydrated core of scenario S6. -/
def c6State : PendingStateManager :=
  initPendingStateManager rtA
    (some { clientId := some "C1", pendingStates := [IPendingState.message c6Msg] })

/-- The first remote ack of scenario S6: sequence number 150 from the prior
session's client. -/
def c6Ack : ISequencedDocumentMessage :=
  { msgType := "op", clientId := some "C1", clientSequenceNumber := 1,
    sequenceNumber := 150, batchMetadata := none }

/-- C6 witness: scenario S6 evaluated concretely. -/
theorem C6_witness :
    processMessage c6Ack false c6State = MRes.error msgTooRecent c6State :=
  C6_theorem c6State c6Ack c6Msg [] (by decide) (by decide) (by decide) (by decide)

/-- C8: `onFlushModeChanged(Manual)` immediately followed by
`onFlushModeChanged(Automatic)` with no intervening submit or flush leaves
the pending queue exactly as it was: the Manual entry is pushed and then
popped again by the Automatic transition. -/
theorem C8_theorem (s : PendingStateManager) :
    (onFlushModeUpdated FlushMode.Automatic
        (onFlushModeUpdated FlushMode.Manual s)).pendingStates =
      s.pendingStates := by
  simp [onFlushModeUpdated, List.getLast?_concat, List.dropLast_concat]

/-- The core of the C10 scenario: flush mode switched to Manual (pushing a
FlushModeChange entry) and a single op submitted, with no trailing marker. -/
def c10State : PendingStateManager :=
  submitWithFreshCsn "op" 5 7 none (hostSetFlushMode FlushMode.Manual (freshPSM rtA))

/-- The matching local ack for the single op of `c10State`. -/
def c10Ack : ISequencedDocumentMessage :=
  { msgType := "op", clientId := some "c1", clientSequenceNumber := 0,
    sequenceNumber := 10, batchMetadata := none }

/-- C10: a local ack for the last entry of pending while a batch is open
(after `onFlushModeChanged(Manual)` and a single `onSubmit`): the batch-begin
step consumes the Manual marker and opens the batch, the Message is matched
and popped, and then the batch-end step peeks the now-empty queue and fails
the internal assertion of `peekNextPendingState` — the call neither completes
nor invokes `runtime.closeFn` (no `close` event is recorded). -/
theorem C10_theorem :
    runHostCmds [HostCmd.setFlushMode FlushMode.Manual, HostCmd.submit "op" 5 7 none]
        (freshPSM rtA) = MRes.ok () c10State ∧
    errMsg (processMessage c10Ack true c10State) = some msgNoPendingState ∧
    (errState (processMessage c10Ack true c10State)).map
        (fun s => closeFree s.containerRuntime.events) = some true ∧
    (errState (processMessage c10Ack true c10State)).map
        (fun s => (s.isProcessingBatch, s.pendingStates)) = some (true, []) := by
  refine ⟨by decide, by decide, by decide, by decide⟩

/-- The state a call reached, whether it returned or threw. -/
def mresState {α : Type} : MRes α → PendingStateManager
  | MRes.ok _ s => s
  | MRes.error _ s => s

/-- Whether a call returned normally. -/
def isOk {α : Type} : MRes α → Bool
  | MRes.ok _ _ => true
  | MRes.error _ _ => false

/-- The single pending Message of the prior session used by the C2
counterexample. -/
def c2Msg : IPendingMessage :=
  { messageType := "op", clientSequenceNumber := 1, referenceSequenceNumber := 5,
    content := 3, localOpMetadata := 4, opMetadata := none }

/-- A core rehydrated from a serialized state holding one pending Message. -/
def c2State : PendingStateManager :=
  initPendingStateManager rtA
    (some { clientId := some "A", pendingStates := [IPendingState.message c2Msg] })

/-- A remote ack from a different client whose sequence number lets the rebase
loop promote the initial Message into the pending queue. -/
def c2Ack : ISequencedDocumentMessage :=
  { msgType := "op", clientId := some "B", clientSequenceNumber := 9,
    sequenceNumber := 5, batchMetadata := none }

/-- C2 counterexample: one `processAck` call on a core rehydrated from a
serialized initial state promotes the initial Message into `pending` without
incrementing `pendingMessagesCount`: afterwards the counter is 0 while the
pending queue holds 1 Message entry, and no error or close occurred. -/
theorem C2_counterexample :
    okValue (processMessage c2Ack false c2State) =
      some { localAck := false, localOpMetadata := none } ∧
    (okState (processMessage c2Ack false c2State)).map
      (fun s => (s.pendingMessagesCount, countMessages s.pendingStates,
        closeFree s.containerRuntime.events)) = some (0, 1, true) := by
  refine ⟨by decide, by decide⟩

/-- The batch-metadata requirement of the source's `maybeProcessBatchEnd`:
for a single-message batch (the recorded batch begin message is the ack
itself) the ack must carry no batch metadata; otherwise the begin message
must carry `batch: true` and the ack `batch: false`. -/
def batchMetadataOk (b ack : ISequencedDocumentMessage) : Bool :=
  if b = ack then decide (ack.batchMetadata = none)
  else decide (b.batchMetadata = some true) && decide (ack.batchMetadata = some false)

/-- The metadata checks of `batchEndCore` succeed exactly when
`batchMetadataOk` holds, and they never touch the container runtime. -/
theorem batchEndCore_spec (message : ISequencedDocumentMessage)
    (t : PendingStateManager) (b : ISequencedDocumentMessage)
    (hb : t.pendingBatchBeginMessage = some b) :
    (mresState (batchEndCore message t)).containerRuntime = t.containerRuntime ∧
    isOk (batchEndCore message t) = batchMetadataOk b message := by
  by_cases hba : b = message
  · by_cases h : message.batchMetadata = none <;>
      simp [batchEndCore, hb, batchMetadataOk, clearBatch, hba, h, mresState, isOk]
  · by_cases h1 : b.batchMetadata = some true <;>
      by_cases h2 : message.batchMetadata = some false <;>
      simp [batchEndCore, hb, batchMetadataOk, clearBatch, hba, h1, h2, mresState, isOk]

/-- `maybeProcessBatchEnd` on a queue headed by a FlushMarker or a
FlushModeChange(Automatic) entry: the runtime is untouched and the call
succeeds exactly when the batch metadata is well-formed. -/
theorem maybeProcessBatchEnd_spec (message : ISequencedDocumentMessage)
    (t : PendingStateManager) (b : ISequencedDocumentMessage)
    (next : IPendingState) (rest' : List IPendingState)
    (hp : t.pendingStates = next :: rest')
    (hb : t.pendingBatchBeginMessage = some b)
    (h6 : next = IPendingState.flush ∨ next = IPendingState.flushMode FlushMode.Automatic) :
    (mresState (maybeProcessBatchEnd message t)).containerRuntime = t.containerRuntime ∧
    isOk (maybeProcessBatchEnd message t) = batchMetadataOk b message := by
  rcases h6 with h6 | h6 <;> subst h6
  · have h := batchEndCore_spec message t b hb
    simpa [maybeProcessBatchEnd, peekNextPendingState, hp] using h
  · have h := batchEndCore_spec message { t with pendingStates := rest' } b
      (by simpa using hb)
    simpa [maybeProcessBatchEnd, peekNextPendingState, hp] using h

/-- The core of the C5 scenario after `setFlushMode(Manual)`, two submits
(contents 10 and 20, local metadata 11 and 21), and `setFlushMode(Automatic)`. -/
def c5Start : PendingStateManager :=
  hostSetFlushMode FlushMode.Automatic
    (submitWithFreshCsn "op" 20 21 none
      (submitWithFreshCsn "op" 10 11 none
        (hostSetFlushMode FlushMode.Manual (freshPSM rtA))))

/-- The first ack of the C5 batch, carrying `batch: true` metadata. -/
def c5Ack0 : ISequencedDocumentMessage :=
  { msgType := "op", clientId := some "c1", clientSequenceNumber := 0,
    sequenceNumber := 30, batchMetadata := some true }

/-- The second (final) ack of the C5 batch with absent batch metadata — the
malformed case of scenario S5. -/
def c5Ack1 : ISequencedDocumentMessage :=
  { msgType := "op", clientId := some "c1", clientSequenceNumber := 1,
    sequenceNumber := 31, batchMetadata := none }

/-- The second (final) ack of the C5 batch with correct `batch: false`
metadata. -/
def c5Ack1Good : ISequencedDocumentMessage :=
  { msgType := "op", clientId := some "c1", clientSequenceNumber := 1,
    sequenceNumber := 31, batchMetadata := some false }

/-- The second pending Message of the C5 scenario. -/
def c5Msg1 : IPendingMessage :=
  { messageType := "op", clientSequenceNumber := 1, referenceSequenceNumber := 0,
    content := 20, localOpMetadata := 21, opMetadata := none }

/-- The runtime attached to `c5Mid`: still disconnected, back in Automatic
mode, having assigned two client sequence numbers. -/
def c5Rt : RuntimeModel :=
  { connected := false, clientId := none, flushMode := FlushMode.Automatic,
    nextClientSequenceNumber := 2, referenceSequenceNumber := 0, events := [] }

/-- `c5Start` after the first ack of the batch has been processed: the
Manual marker is consumed, the batch is open with `c5Ack0` recorded as its
begin message, and the second Message heads the queue. -/
def c5Mid : PendingStateManager :=
  { pendingStates := [IPendingState.message c5Msg1,
      IPendingState.flushMode FlushMode.Automatic]
    initialStates := []
    initialClientId := none
    initialClientSeqNum := -1
    pendingMessagesCount := 1
    isProcessingBatch := true
    pendingBatchBeginMessage := some c5Ack0
    clientId := none
    containerRuntime := c5Rt }

/-- C5 counterexample: in the S5 batch, the final ack arriving with absent
batch metadata makes the batch-end check fail an internal assertion — the
call throws and `runtime.closeFn` is never invoked, so the violation is not
reported as data corruption through the runtime. -/
theorem C5_counterexample :
    processMessage c5Ack0 true c5Start =
      MRes.ok { localAck := false, localOpMetadata := some 11 } c5Mid ∧
    errMsg (processMessage c5Ack1 true c5Mid) = some msgNoEndMeta ∧
    (errState (processMessage c5Ack1 true c5Mid)).map
      (fun s => closeFree s.containerRuntime.events) = some true := by
  refine ⟨by decide, by decide, by decide⟩

/-- C5 (amended): when a local ack closes a batch (the entry after the acked
Message at the head of pending is a FlushMarker or a
FlushModeChange(Automatic) entry), the call returns normally exactly when the
batch metadata is well-formed — absent on the ack when the recorded batch
begin message is the ack itself, otherwise `true` on the begin message and
`false` on the ack — and every violation fails an internal assertion (the
call throws); `runtime.closeFn` is not invoked either way (the event log is
unchanged). -/
theorem C5_amended (s : PendingStateManager) (ack b : ISequencedDocumentMessage)
    (m : IPendingMessage) (next : IPendingState) (rest : List IPendingState)
    (h1 : s.pendingStates = IPendingState.message m :: next :: rest)
    (h2 : m.clientSequenceNumber = ack.clientSequenceNumber)
    (h3 : ack.msgType ≠ chunkedOpType)
    (h4 : s.isProcessingBatch = true)
    (h5 : s.pendingBatchBeginMessage = some b)
    (h6 : next = IPendingState.flush ∨ next = IPendingState.flushMode FlushMode.Automatic) :
    (mresState (processMessage ack true s)).containerRuntime.events =
      s.containerRuntime.events ∧
    isOk (processMessage ack true s) = batchMetadataOk b ack := by
  have hspec := maybeProcessBatchEnd_spec ack
      { s with pendingStates := next :: rest
               pendingMessagesCount := s.pendingMessagesCount - 1
               isProcessingBatch := true } b next rest
      rfl (by simp [h5]) h6
  rcases hres : maybeProcessBatchEnd ack
      { s with pendingStates := next :: rest
               pendingMessagesCount := s.pendingMessagesCount - 1
               isProcessingBatch := true } with _ | _ <;>
    rw [hres] at hspec <;>
    simp only [mresState, isOk] at hspec <;>
    simp [processMessage, h3, processPendingLocalMessage, processLocalMatch,
      maybeProcessBatchBegin, peekNextPendingState, h1, h2, h4, hres, mresState, isOk] <;>
    exact ⟨by rw [hspec.1], hspec.2.symm⟩

/-- C5 witness: the amended statement evaluated on the S5 batch with the
well-formed final ack. -/
theorem C5_witness :
    (mresState (processMessage c5Ack1Good true c5Mid)).containerRuntime.events =
      c5Mid.containerRuntime.events ∧
    isOk (processMessage c5Ack1Good true c5Mid) = batchMetadataOk c5Ack0 c5Ack1Good :=
  C5_amended c5Mid c5Ack1Good c5Ack0 c5Msg1
    (IPendingState.flushMode FlushMode.Automatic) [] (by decide) (by decide)
    (by decide) (by decide) (by decide) (Or.inr (by decide))

/-- A local ack arriving at a core with an empty pending queue. -/
def c3Ack : ISequencedDocumentMessage :=
  { msgType := "op", clientId := some "c1", clientSequenceNumber := 4,
    sequenceNumber := 12, batchMetadata := none }

/-- C3 counterexample: a local ack processed while `pending` is empty — the
head of pending was not a Message with the ack's clientSequenceNumber, yet
`runtime.closeFn` is not called either: the call dies on the internal
assertion of `peekNextPendingState`, so the claim's two-way disjunction fails
at this input. -/
theorem C3_counterexample :
    (freshPSM rtA).pendingStates = [] ∧
    errMsg (processMessage c3Ack true (freshPSM rtA)) = some msgNoPendingState ∧
    (errState (processMessage c3Ack true (freshPSM rtA))).map
      (fun s => closeFree s.containerRuntime.events) = some true := by
  refine ⟨by decide, by decide, by decide⟩

/-- The batch-metadata checks touch only the queue and the batch flags,
never the container runtime, whatever their outcome. -/
theorem batchEndCore_runtime (message : ISequencedDocumentMessage)
    (t : PendingStateManager) :
    (mresState (batchEndCore message t)).containerRuntime = t.containerRuntime := by
  cases hb : t.pendingBatchBeginMessage with
  | none => simp [batchEndCore, hb, mresState]
  | some b =>
    by_cases hba : b = message
    · by_cases h : message.batchMetadata = none <;>
        simp [batchEndCore, hb, hba, h, mresState, clearBatch]
    · by_cases h1 : b.batchMetadata = some true <;>
        by_cases h2 : message.batchMetadata = some false <;>
        simp [batchEndCore, hb, hba, h1, h2, mresState, clearBatch]

/-- The batch-end step touches only the queue and the batch flags, never the
container runtime, whatever its outcome. -/
theorem maybeProcessBatchEnd_runtime (message : ISequencedDocumentMessage)
    (t : PendingStateManager) :
    (mresState (maybeProcessBatchEnd message t)).containerRuntime =
      t.containerRuntime := by
  cases hp : t.pendingStates with
  | nil => simp [maybeProcessBatchEnd, peekNextPendingState, hp, mresState]
  | cons x rest =>
    cases x with
    | message m =>
        simp [maybeProcessBatchEnd, peekNextPendingState, hp, mresState]
    | flushMode fm =>
      cases fm with
      | Automatic =>
          have h := batchEndCore_runtime message { t with pendingStates := rest }
          simpa [maybeProcessBatchEnd, peekNextPendingState, hp] using h
      | Manual =>
          simp [maybeProcessBatchEnd, peekNextPendingState, hp, mresState]
    | flush =>
        have h := batchEndCore_runtime message t
        simpa [maybeProcessBatchEnd, peekNextPendingState, hp] using h

/-- `batchBeginCore` either rejects (already in a batch) leaving the state
untouched, or records the batch begin message and shifts the marker. -/
theorem batchBeginCore_spec (ack : ISequencedDocumentMessage)
    (t : PendingStateManager) :
    batchBeginCore ack t = MRes.error msgAlreadyInBatch t ∨
    (batchBeginCore ack t = MRes.ok ()
        { t with pendingBatchBeginMessage := some ack
                 isProcessingBatch := true
                 pendingStates := t.pendingStates.tail } ∧
      t.isProcessingBatch = false ∧ t.pendingBatchBeginMessage = none) := by
  by_cases hg : t.isProcessingBatch ∨ t.pendingBatchBeginMessage.isSome
  · left
    simp [batchBeginCore, hg]
  · right
    have h1 : t.isProcessingBatch = false := by
      revert hg; cases t.isProcessingBatch <;> simp
    have h2 : t.pendingBatchBeginMessage = none := by
      revert hg; cases t.pendingBatchBeginMessage <;> simp
    exact ⟨by simp [batchBeginCore, hg], h1, h2⟩

/-- Trichotomy for the match-and-pop step of local ack handling: it throws
(leaving the event log untouched), or pops a head Message with the ack's
clientSequenceNumber (event log untouched), or pops a head Message with a
different clientSequenceNumber, recording the close call with the
DataCorruptionError fields. -/
theorem processLocalMatch_spec (ack : ISequencedDocumentMessage)
    (t : PendingStateManager) :
    (∃ e s', processLocalMatch ack t = MRes.error e s' ∧
       s'.containerRuntime.events = t.containerRuntime.events) ∨
    (∃ m rest s', t.pendingStates = IPendingState.message m :: rest ∧
       m.clientSequenceNumber = ack.clientSequenceNumber ∧
       processLocalMatch ack t = MRes.ok (some m.localOpMetadata) s' ∧
       s'.containerRuntime.events = t.containerRuntime.events) ∨
    (∃ m rest s', t.pendingStates = IPendingState.message m :: rest ∧
       m.clientSequenceNumber ≠ ack.clientSequenceNumber ∧
       processLocalMatch ack t = MRes.ok none s' ∧
       s'.containerRuntime.events = t.containerRuntime.events ++
         [RuntimeEvent.close ack.clientId ack.sequenceNumber
           ack.clientSequenceNumber m.clientSequenceNumber]) := by
  cases hp : t.pendingStates with
  | nil =>
    refine Or.inl ⟨msgNoPendingState, t, ?_, rfl⟩
    simp [processLocalMatch, peekNextPendingState, hp]
  | cons x rest =>
    cases x with
    | message m =>
      by_cases hcsn : m.clientSequenceNumber = ack.clientSequenceNumber
      · cases hbatch : t.isProcessingBatch with
        | false =>
          refine Or.inr (Or.inl ⟨m, rest,
            { t with pendingStates := rest
                     pendingMessagesCount := t.pendingMessagesCount - 1 },
            rfl, hcsn, ?_, rfl⟩)
          simp [processLocalMatch, peekNextPendingState, hp, hcsn, hbatch]
        | true =>
          rcases hres : maybeProcessBatchEnd ack
              { t with pendingStates := rest
                       pendingMessagesCount := t.pendingMessagesCount - 1
                       isProcessingBatch := true } with ⟨v, s5⟩ | ⟨e, s'⟩
          · have hrt := maybeProcessBatchEnd_runtime ack
              { t with pendingStates := rest
                       pendingMessagesCount := t.pendingMessagesCount - 1
                       isProcessingBatch := true }
            rw [hres] at hrt
            simp only [mresState] at hrt
            refine Or.inr (Or.inl ⟨m, rest, s5, rfl, hcsn, ?_, ?_⟩)
            · simp [processLocalMatch, peekNextPendingState, hp, hcsn, hbatch, hres]
            · rw [hrt]
          · have hrt := maybeProcessBatchEnd_runtime ack
              { t with pendingStates := rest
                       pendingMessagesCount := t.pendingMessagesCount - 1
                       isProcessingBatch := true }
            rw [hres] at hrt
            simp only [mresState] at hrt
            refine Or.inl ⟨e, s', ?_, ?_⟩
            · simp [processLocalMatch, peekNextPendingState, hp, hcsn, hbatch, hres]
            · rw [hrt]
      · refine Or.inr (Or.inr ⟨m, rest,
          closeWithError ack m.clientSequenceNumber
            { t with pendingStates := rest }, rfl, hcsn, ?_, ?_⟩)
        · simp [processLocalMatch, peekNextPendingState, hp, hcsn]
        · simp [closeWithError]
    | flushMode fm =>
      refine Or.inl ⟨msgNoPendingMessage, t, ?_, rfl⟩
      simp [processLocalMatch, peekNextPendingState, hp]
    | flush =>
      refine Or.inl ⟨msgNoPendingMessage, t, ?_, rfl⟩
      simp [processLocalMatch, peekNextPendingState, hp]

/-- C3 (amended): for every ack processed with `isLocal = true`, one of three
things happens: the call fails an internal assertion (throwing, with the
event log — and hence `closeFn` — untouched), or the head of pending (after
any batch-begin marker is consumed) was a Message with clientSequenceNumber
equal to the ack's and the call completes without touching the runtime, or
that head Message's clientSequenceNumber differs from the ack's and
`runtime.closeFn` is called with a DataCorruption error whose
`expectedClientSequenceNumber` is the pending Message's CSN and whose
`clientSequenceNumber` is the ack's CSN. -/
theorem C3_amended (s : PendingStateManager) (ack : ISequencedDocumentMessage)
    (h : ack.msgType ≠ chunkedOpType) :
    (∃ e, errMsg (processMessage ack true s) = some e ∧
       (mresState (processMessage ack true s)).containerRuntime.events =
         s.containerRuntime.events) ∨
    (∃ m, localHead s = some m ∧
       m.clientSequenceNumber = ack.clientSequenceNumber ∧
       isOk (processMessage ack true s) = true ∧
       (mresState (processMessage ack true s)).containerRuntime.events =
         s.containerRuntime.events) ∨
    (∃ m, localHead s = some m ∧
       m.clientSequenceNumber ≠ ack.clientSequenceNumber ∧
       okValue (processMessage ack true s) =
         some { localAck := false, localOpMetadata := none } ∧
       (mresState (processMessage ack true s)).containerRuntime.events =
         s.containerRuntime.events ++
           [RuntimeEvent.close ack.clientId ack.sequenceNumber
             ack.clientSequenceNumber m.clientSequenceNumber]) := by
  cases hp : s.pendingStates with
  | nil =>
    refine Or.inl ⟨msgNoPendingState, ?_, ?_⟩ <;>
      simp [processMessage, h, processPendingLocalMessage, maybeProcessBatchBegin,
        peekNextPendingState, hp, errMsg, mresState]
  | cons x rest =>
    cases x with
    | message m0 =>
      rcases processLocalMatch_spec ack s with
          ⟨e, s', heq, hev⟩ | ⟨m, rest2, s', hps, hcsn, heq, hev⟩ |
          ⟨m, rest2, s', hps, hcsn, heq, hev⟩
      · refine Or.inl ⟨e, ?_, ?_⟩ <;>
          simp [processMessage, h, processPendingLocalMessage, maybeProcessBatchBegin,
            peekNextPendingState, hp, heq, errMsg, mresState, hev]
      · refine Or.inr (Or.inl ⟨m, ?_, hcsn, ?_, ?_⟩)
        · rw [hp] at hps
          cases hps
          simp [localHead, hp]
        · simp [processMessage, h, processPendingLocalMessage, maybeProcessBatchBegin,
            peekNextPendingState, hp, heq, isOk]
        · simp [processMessage, h, processPendingLocalMessage, maybeProcessBatchBegin,
            peekNextPendingState, hp, heq, mresState, hev]
      · refine Or.inr (Or.inr ⟨m, ?_, hcsn, ?_, ?_⟩)
        · rw [hp] at hps
          cases hps
          simp [localHead, hp]
        · simp [processMessage, h, processPendingLocalMessage, maybeProcessBatchBegin,
            peekNextPendingState, hp, heq, okValue]
        · simp [processMessage, h, processPendingLocalMessage, maybeProcessBatchBegin,
            peekNextPendingState, hp, heq, mresState, hev]
    | flushMode fm =>
      cases fm with
      | Automatic =>
        refine Or.inl ⟨msgBeginManual, ?_, ?_⟩ <;>
          simp [processMessage, h, processPendingLocalMessage, maybeProcessBatchBegin,
            peekNextPendingState, hp, errMsg, mresState]
      | Manual =>
        rcases batchBeginCore_spec ack s with hbeg | ⟨hbeg, _, _⟩
        · refine Or.inl ⟨msgAlreadyInBatch, ?_, ?_⟩ <;>
            simp [processMessage, h, processPendingLocalMessage, maybeProcessBatchBegin,
              peekNextPendingState, hp, hbeg, errMsg, mresState]
        · rcases processLocalMatch_spec ack
              { s with pendingStates := rest
                       pendingBatchBeginMessage := some ack
                       isProcessingBatch := true } with
              ⟨e, s', heq, hev⟩ | ⟨m, rest2, s', hps, hcsn, heq, hev⟩ |
              ⟨m, rest2, s', hps, hcsn, heq, hev⟩
          · refine Or.inl ⟨e, ?_, ?_⟩ <;>
              simp [processMessage, h, processPendingLocalMessage, maybeProcessBatchBegin,
                peekNextPendingState, hp, hbeg, heq, errMsg, mresState, hev]
          · simp only at hps
            refine Or.inr (Or.inl ⟨m, ?_, hcsn, ?_, ?_⟩)
            · simp [localHead, hp, hps]
            · simp [processMessage, h, processPendingLocalMessage, maybeProcessBatchBegin,
                peekNextPendingState, hp, hbeg, heq, isOk]
            · simp [processMessage, h, processPendingLocalMessage, maybeProcessBatchBegin,
                peekNextPendingState, hp, hbeg, heq, mresState, hev]
          · simp only at hps
            refine Or.inr (Or.inr ⟨m, ?_, hcsn, ?_, ?_⟩)
            · simp [localHead, hp, hps]
            · simp [processMessage, h, processPendingLocalMessage, maybeProcessBatchBegin,
                peekNextPendingState, hp, hbeg, heq, okValue]
            · simp [processMessage, h, processPendingLocalMessage, maybeProcessBatchBegin,
                peekNextPendingState, hp, hbeg, heq, mresState, hev]
    | flush =>
      rcases batchBeginCore_spec ack s with hbeg | ⟨hbeg, _, _⟩
      · refine Or.inl ⟨msgAlreadyInBatch, ?_, ?_⟩ <;>
          simp [processMessage, h, processPendingLocalMessage, maybeProcessBatchBegin,
            peekNextPendingState, hp, hbeg, errMsg, mresState]
      · rcases processLocalMatch_spec ack
            { s with pendingStates := rest
                     pendingBatchBeginMessage := some ack
                     isProcessingBatch := true } with
            ⟨e, s', heq, hev⟩ | ⟨m, rest2, s', hps, hcsn, heq, hev⟩ |
            ⟨m, rest2, s', hps, hcsn, heq, hev⟩
        · refine Or.inl ⟨e, ?_, ?_⟩ <;>
            simp [processMessage, h, processPendingLocalMessage, maybeProcessBatchBegin,
              peekNextPendingState, hp, hbeg, heq, errMsg, mresState, hev]
        · simp only at hps
          refine Or.inr (Or.inl ⟨m, ?_, hcsn, ?_, ?_⟩)
          · simp [localHead, hp, hps]
          · simp [processMessage, h, processPendingLocalMessage, maybeProcessBatchBegin,
              peekNextPendingState, hp, hbeg, heq, isOk]
          · simp [processMessage, h, processPendingLocalMessage, maybeProcessBatchBegin,
              peekNextPendingState, hp, hbeg, heq, mresState, hev]
        · simp only at hps
          refine Or.inr (Or.inr ⟨m, ?_, hcsn, ?_, ?_⟩)
          · simp [localHead, hp, hps]
          · simp [processMessage, h, processPendingLocalMessage, maybeProcessBatchBegin,
              peekNextPendingState, hp, hbeg, heq, okValue]
          · simp [processMessage, h, processPendingLocalMessage, maybeProcessBatchBegin,
              peekNextPendingState, hp, hbeg, heq, mresState, hev]

/-- The S4 ack: local ack carrying clientSequenceNumber 6 while the pending
Message has clientSequenceNumber 0. -/
def c3AckMismatch : ISequencedDocumentMessage :=
  { msgType := "op", clientId := some "c1", clientSequenceNumber := 6,
    sequenceNumber := 12, batchMetadata := none }

/-- C3 witness: the amended trichotomy evaluated on the CSN-mismatch
scenario S4. -/
theorem C3_witness :
    (∃ e, errMsg (processMessage c3AckMismatch true c1State) = some e ∧
       (mresState (processMessage c3AckMismatch true c1State)).containerRuntime.events =
         c1State.containerRuntime.events) ∨
    (∃ m, localHead c1State = some m ∧
       m.clientSequenceNumber = c3AckMismatch.clientSequenceNumber ∧
       isOk (processMessage c3AckMismatch true c1State) = true ∧
       (mresState (processMessage c3AckMismatch true c1State)).containerRuntime.events =
         c1State.containerRuntime.events) ∨
    (∃ m, localHead c1State = some m ∧
       m.clientSequenceNumber ≠ c3AckMismatch.clientSequenceNumber ∧
       okValue (processMessage c3AckMismatch true c1State) =
         some { localAck := false, localOpMetadata := none } ∧
       (mresState (processMessage c3AckMismatch true c1State)).containerRuntime.events =
         c1State.containerRuntime.events ++
           [RuntimeEvent.close c3AckMismatch.clientId c3AckMismatch.sequenceNumber
             c3AckMismatch.clientSequenceNumber m.clientSequenceNumber]) :=
  C3_amended c1State c3AckMismatch (by decide)

/-- Fields of the core that a replay dispatch never modifies. -/
def corePreserved (s s' : PendingStateManager) : Prop :=
  s'.initialStates = s.initialStates ∧
  s'.initialClientId = s.initialClientId ∧
  s'.initialClientSeqNum = s.initialClientSeqNum ∧
  s'.clientId = s.clientId ∧
  s'.isProcessingBatch = s.isProcessingBatch ∧
  s'.pendingBatchBeginMessage = s.pendingBatchBeginMessage ∧
  s'.containerRuntime.connected = s.containerRuntime.connected ∧
  s'.containerRuntime.clientId = s.containerRuntime.clientId

/-- `corePreserved` is reflexive. -/
theorem corePreserved_refl (s : PendingStateManager) : corePreserved s s :=
  ⟨rfl, rfl, rfl, rfl, rfl, rfl, rfl, rfl⟩

/-- `corePreserved` is transitive. -/
theorem corePreserved_trans {a b c : PendingStateManager}
    (h1 : corePreserved a b) (h2 : corePreserved b c) : corePreserved a c := by
  obtain ⟨a1, a2, a3, a4, a5, a6, a7, a8⟩ := h1
  obtain ⟨b1, b2, b3, b4, b5, b6, b7, b8⟩ := h2
  exact ⟨b1.trans a1, b2.trans a2, b3.trans a3, b4.trans a4, b5.trans a5,
    b6.trans a6, b7.trans a7, b8.trans a8⟩

/-- `countMessages` of the empty list. -/
theorem countMessages_nil : countMessages [] = 0 := rfl

/-- `countMessages` distributes over append. -/
theorem countMessages_append (a b : List IPendingState) :
    countMessages (a ++ b) = countMessages a + countMessages b := by
  simp [countMessages, List.filter_append]

/-- One replay dispatch appends exactly its own runtime call to the event
log, appends at most one entry (a resubmitted message) to the pending queue,
adds the dispatched entry's message count to the counter, and leaves the rest
of the core untouched. -/
theorem dispatchPendingState_spec (e : IPendingState) (u : PendingStateManager) :
    ∃ app : List IPendingState,
      (dispatchPendingState e u).pendingStates = u.pendingStates ++ app ∧
      countMessages app = countMessages [e] ∧
      (dispatchPendingState e u).pendingMessagesCount =
        u.pendingMessagesCount + countMessages [e] ∧
      (dispatchPendingState e u).containerRuntime.events =
        u.containerRuntime.events ++ [dispatchEvent e] ∧
      corePreserved u (dispatchPendingState e u) := by
  cases e with
  | message pm =>
    refine ⟨[IPendingState.message
      { messageType := pm.messageType
        clientSequenceNumber := u.containerRuntime.nextClientSequenceNumber
        referenceSequenceNumber := u.containerRuntime.referenceSequenceNumber
        content := pm.content
        localOpMetadata := pm.localOpMetadata
        opMetadata := pm.opMetadata }], ?_, ?_, ?_, ?_, ?_⟩ <;>
      simp [dispatchPendingState, rtReSubmit, submitWithFreshCsn, onSubmitMessage,
        countMessages, isMessageState, dispatchEvent, corePreserved]
  | flushMode fm =>
    refine ⟨[], ?_, ?_, ?_, ?_, ?_⟩ <;>
      simp [dispatchPendingState, rtSetFlushMode, countMessages, isMessageState,
        dispatchEvent, corePreserved]
  | flush =>
    refine ⟨[], ?_, ?_, ?_, ?_, ?_⟩ <;>
      simp [dispatchPendingState, rtFlush, countMessages, isMessageState,
        dispatchEvent, corePreserved]

/-- The replay loop with fuel equal to the length of a prefix `P` of the
pending queue dispatches exactly the entries of `P`, in order: the event log
grows by `P.map dispatchEvent`, the queue afterwards is the untouched
remainder followed by the entries appended by the loop's own re-entrant
resubmissions (whose message count equals that of `P`), and the message
counter grows by the message count of `P`. -/
theorem replayLoop_spec (P : List IPendingState) :
    ∀ (rest : List IPendingState) (s : PendingStateManager),
    s.pendingStates = P ++ rest →
    ∃ (s' : PendingStateManager) (app : List IPendingState),
      replayLoop P.length s = MRes.ok () s' ∧
      s'.pendingStates = rest ++ app ∧
      countMessages app = countMessages P ∧
      s'.pendingMessagesCount = s.pendingMessagesCount + countMessages P ∧
      s'.containerRuntime.events =
        s.containerRuntime.events ++ P.map dispatchEvent ∧
      corePreserved s s' := by
  induction P with
  | nil =>
    intro rest s hp
    refine ⟨s, [], rfl, ?_, rfl, ?_, ?_, corePreserved_refl s⟩
    · simpa using hp
    · simp [countMessages_nil]
    · simp
  | cons e P' ih =>
    intro rest s hp
    obtain ⟨appE, hps, hcm, hcount, hev, hpres⟩ :=
      dispatchPendingState_spec e { s with pendingStates := P' ++ rest }
    obtain ⟨s', app', hrun, hps', hcm', hcount', hev', hpres'⟩ :=
      ih (rest ++ appE) (dispatchPendingState e { s with pendingStates := P' ++ rest })
        (by rw [hps]; simp)
    refine ⟨s', appE ++ app', ?_, ?_, ?_, ?_, ?_, ?_⟩
    · simpa [replayLoop, hp] using hrun
    · rw [hps']; simp
    · rw [countMessages_append, hcm, hcm']
      have : countMessages (e :: P') = countMessages [e] + countMessages P' := by
        simpa using countMessages_append [e] P'
      rw [this]
    · rw [hcount']
      simp only at hcount
      rw [hcount]
      have : countMessages (e :: P') = countMessages [e] + countMessages P' := by
        simpa using countMessages_append [e] P'
      rw [this]
      ring
    · rw [hev']
      simp only at hev
      rw [hev]
      simp
    · exact corePreserved_trans (by simpa using hpres) hpres'

/-- The initial-state drain of `replayPendingStates`: it empties
`initialStates` onto the back of the pending queue in order, logging one
`rebase` call per Message, and touches nothing else. -/
theorem replayDrainInitial_spec (I : List IPendingState) :
    ∀ s : PendingStateManager, s.initialStates = I →
    replayDrainInitial I.length s =
      { s with pendingStates := s.pendingStates ++ I
               initialStates := []
               containerRuntime := { s.containerRuntime with
                 events := s.containerRuntime.events ++ rebaseEvents I } } := by
  induction I with
  | nil =>
    intro s hI
    cases s with
    | mk ps is icid icsn cnt ipb pbb cid rt =>
      simp only at hI
      simp [replayDrainInitial, rebaseEvents, hI]
  | cons x I' ih =>
    intro s hI
    cases x <;>
      simp [replayDrainInitial, hI, addRebaseEvent, ih, rebaseEvents]

/-- Full characterization of `replayPendingStates` on a connected runtime
with a fresh client id: it succeeds; it drains `initialStates` (logging
rebase calls), then dispatches exactly the pre-loop queue — the original
pending entries followed by the drained initial entries — in order, leaving
in the queue precisely the entries appended by its own re-entrant
resubmissions; and it restores the saved flush mode. -/
theorem replayPendingStates_spec (s : PendingStateManager)
    (hconn : s.containerRuntime.connected = true)
    (hcid : ¬ s.clientId = s.containerRuntime.clientId) :
    ∃ (s' : PendingStateManager) (app : List IPendingState),
      replayPendingStates s = MRes.ok () s' ∧
      s'.pendingStates = app ∧
      countMessages app = countMessages (s.pendingStates ++ s.initialStates) ∧
      s'.initialStates = [] ∧
      s'.clientId = s.containerRuntime.clientId ∧
      s'.isProcessingBatch = s.isProcessingBatch ∧
      s'.pendingBatchBeginMessage = s.pendingBatchBeginMessage ∧
      s'.containerRuntime.flushMode = s.containerRuntime.flushMode ∧
      s'.containerRuntime.events = s.containerRuntime.events ++
        rebaseEvents s.initialStates ++
        (if s.pendingStates ++ s.initialStates = [] then []
         else (s.pendingStates ++ s.initialStates).map dispatchEvent ++
           [RuntimeEvent.setFlushMode s.containerRuntime.flushMode]) ∧
      s'.pendingMessagesCount =
        (if s.pendingStates ++ s.initialStates = [] then s.pendingMessagesCount
         else countMessages (s.pendingStates ++ s.initialStates)) ∧
      s'.initialClientId = s.initialClientId ∧
      s'.initialClientSeqNum = s.initialClientSeqNum := by
  have hdrain := replayDrainInitial_spec s.initialStates
    { s with clientId := s.containerRuntime.clientId } rfl
  by_cases hP : s.pendingStates ++ s.initialStates = []
  · refine ⟨{ s with clientId := s.containerRuntime.clientId
                     pendingStates := s.pendingStates ++ s.initialStates
                     initialStates := []
                     containerRuntime := { s.containerRuntime with
                       events := s.containerRuntime.events ++ rebaseEvents s.initialStates } },
      s.pendingStates ++ s.initialStates, ?_, ?_, ?_, ?_, ?_, ?_, ?_, ?_, ?_, ?_,
      ?_, ?_⟩ <;>
      simp [replayPendingStates, hconn, hcid, hdrain, hP]
  · obtain ⟨s4, app, hrun, hps4, hcm, hcount4, hev4, hpres4⟩ :=
      replayLoop_spec (s.pendingStates ++ s.initialStates) []
        { s with clientId := s.containerRuntime.clientId
                 pendingStates := s.pendingStates ++ s.initialStates
                 initialStates := []
                 pendingMessagesCount := 0
                 containerRuntime := { s.containerRuntime with
                   events := s.containerRuntime.events ++ rebaseEvents s.initialStates } }
        (by simp)
    obtain ⟨hp1, hp2, hp3, hp4, hp5, hp6, hp7, hp8⟩ := hpres4
    refine ⟨rtSetFlushMode s.containerRuntime.flushMode s4, app, ?_, ?_, ?_, ?_, ?_,
      ?_, ?_, ?_, ?_, ?_, ?_, ?_⟩
    · simp only [List.length_append, hconn] at hrun
      simp [replayPendingStates, hconn, hcid, hdrain, hP, hrun]
      intro h1 h2
      exact absurd (by simp [h1, h2]) hP
    · simpa [rtSetFlushMode] using hps4
    · exact hcm
    · simpa [rtSetFlushMode] using hp1
    · simp only at hp4
      simpa [rtSetFlushMode] using hp4
    · simp only at hp5
      simpa [rtSetFlushMode] using hp5
    · simp only at hp6
      simpa [rtSetFlushMode] using hp6
    · simp [rtSetFlushMode]
    · simp only at hev4
      simp [rtSetFlushMode, hev4, hP]
    · simp only at hcount4
      simp [rtSetFlushMode, hcount4, hP]
    · simp only at hp2
      simpa [rtSetFlushMode] using hp2
    · simp only at hp3
      simpa [rtSetFlushMode] using hp3

/-- C7: `replayPendingStates` on a connected runtime with a fresh client id
terminates normally and dispatches exactly the `n` entries that are in the
queue after draining `initial` and before any resubmission — the event log
grows by exactly one runtime call per such entry, in order, so entries pushed
back onto pending by its own re-entrant resubmit calls are never processed in
the same call (they are exactly what remains in the queue afterwards, with
the same message count as the dispatched entries), and the flush mode saved
before the loop is restored afterwards. -/
theorem C7_theorem (s : PendingStateManager)
    (hconn : s.containerRuntime.connected = true)
    (hcid : ¬ s.clientId = s.containerRuntime.clientId) :
    ∃ (s' : PendingStateManager) (app : List IPendingState),
      replayPendingStates s = MRes.ok () s' ∧
      s'.pendingStates = app ∧
      countMessages app = countMessages (s.pendingStates ++ s.initialStates) ∧
      s'.initialStates = [] ∧
      s'.clientId = s.containerRuntime.clientId ∧
      s'.isProcessingBatch = s.isProcessingBatch ∧
      s'.pendingBatchBeginMessage = s.pendingBatchBeginMessage ∧
      s'.containerRuntime.flushMode = s.containerRuntime.flushMode ∧
      s'.containerRuntime.events = s.containerRuntime.events ++
        rebaseEvents s.initialStates ++
        (if s.pendingStates ++ s.initialStates = [] then []
         else (s.pendingStates ++ s.initialStates).map dispatchEvent ++
           [RuntimeEvent.setFlushMode s.containerRuntime.flushMode]) ∧
      s'.pendingMessagesCount =
        (if s.pendingStates ++ s.initialStates = [] then s.pendingMessagesCount
         else countMessages (s.pendingStates ++ s.initialStates)) := by
  obtain ⟨s', app, a1, a2, a3, a4, a5, a6, a7, a8, a9, a10, a11, a12⟩ :=
    replayPendingStates_spec s hconn hcid
  exact ⟨s', app, a1, a2, a3, a4, a5, a6, a7, a8, a9, a10⟩

/-- A connected runtime for the C7 scenario. -/
def c7Rt : RuntimeModel :=
  { connected := true, clientId := some "C2", flushMode := FlushMode.Manual,
    nextClientSequenceNumber := 5, referenceSequenceNumber := 40, events := [] }

/-- A pending Message awaiting resubmission in the C7 scenario. -/
def c7Msg : IPendingMessage :=
  { messageType := "op", clientSequenceNumber := 1, referenceSequenceNumber := 30,
    content := 8, localOpMetadata := 9, opMetadata := none }

/-- An initial (rehydrated) Message in the C7 scenario. -/
def c7MsgInit : IPendingMessage :=
  { messageType := "op", clientSequenceNumber := 2, referenceSequenceNumber := 31,
    content := 18, localOpMetadata := 19, opMetadata := some 1 }

/-- A core about to replay: one Manual marker, one Message and one FlushMarker
pending, plus one rehydrated Message still in `initial`. -/
def c7State : PendingStateManager :=
  { pendingStates := [IPendingState.flushMode FlushMode.Manual,
      IPendingState.message c7Msg, IPendingState.flush]
    initialStates := [IPendingState.message c7MsgInit]
    initialClientId := some "C1"
    initialClientSeqNum := 2
    pendingMessagesCount := 1
    isProcessingBatch := false
    pendingBatchBeginMessage := none
    clientId := none
    containerRuntime := c7Rt }

/-- C7 witness: the replay characterization evaluated on `c7State`. -/
theorem C7_witness :
    ∃ (s' : PendingStateManager) (app : List IPendingState),
      replayPendingStates c7State = MRes.ok () s' ∧
      s'.pendingStates = app ∧
      countMessages app =
        countMessages (c7State.pendingStates ++ c7State.initialStates) ∧
      s'.initialStates = [] ∧
      s'.clientId = c7State.containerRuntime.clientId ∧
      s'.isProcessingBatch = c7State.isProcessingBatch ∧
      s'.pendingBatchBeginMessage = c7State.pendingBatchBeginMessage ∧
      s'.containerRuntime.flushMode = c7State.containerRuntime.flushMode ∧
      s'.containerRuntime.events = c7State.containerRuntime.events ++
        rebaseEvents c7State.initialStates ++
        (if c7State.pendingStates ++ c7State.initialStates = [] then []
         else (c7State.pendingStates ++ c7State.initialStates).map dispatchEvent ++
           [RuntimeEvent.setFlushMode c7State.containerRuntime.flushMode]) ∧
      s'.pendingMessagesCount =
        (if c7State.pendingStates ++ c7State.initialStates = [] then
          c7State.pendingMessagesCount
         else countMessages (c7State.pendingStates ++ c7State.initialStates)) :=
  C7_theorem c7State (by decide) (by decide)

/-- Commands of the submission side of the interface (no acks, no replay,
no connection changes). -/
def isSubmissionCmd : HostCmd → Bool
  | HostCmd.submit _ _ _ _ => true
  | HostCmd.setFlushMode _ => true
  | HostCmd.flush => true
  | _ => false

/-- Number of `submit` commands in a command list. -/
def numSubmits : List HostCmd → Int
  | [] => 0
  | HostCmd.submit _ _ _ _ :: cs => 1 + numSubmits cs
  | _ :: cs => numSubmits cs

/-- A singleton non-Message entry contributes no messages. -/
theorem countMessages_nonmessage (x : IPendingState)
    (hx : isMessageState x = false) : countMessages [x] = 0 := by
  simp [countMessages, List.filter, hx]

/-- `countMessages` of a cons. -/
theorem countMessages_cons (x : IPendingState) (l : List IPendingState) :
    countMessages (x :: l) = countMessages [x] + countMessages l := by
  simpa using countMessages_append [x] l

/-- Dropping a non-Message last entry does not change the message count. -/
theorem countMessages_dropLast (l : List IPendingState) (x : IPendingState)
    (h : l.getLast? = some x) (hx : isMessageState x = false) :
    countMessages l.dropLast = countMessages l := by
  induction l with
  | nil => simp at h
  | cons a l ih =>
    cases l with
    | nil =>
      simp at h
      subst h
      cases a <;> simp_all [countMessages, isMessageState]
    | cons b l' =>
      rw [List.getLast?_cons_cons] at h
      have hrec := ih h
      rw [List.dropLast_cons₂]
      rw [countMessages_cons a ((b :: l').dropLast), countMessages_cons a (b :: l'),
        hrec]

/-- `onFlushModeUpdated` moves only flush markers around: the message count,
the counter, the initial queues, the session client id and the runtime are
untouched. -/
theorem onFlushModeUpdated_effect (m : FlushMode) (u : PendingStateManager) :
    countMessages (onFlushModeUpdated m u).pendingStates =
      countMessages u.pendingStates ∧
    (onFlushModeUpdated m u).pendingMessagesCount = u.pendingMessagesCount ∧
    (onFlushModeUpdated m u).initialStates = u.initialStates ∧
    (onFlushModeUpdated m u).initialClientId = u.initialClientId ∧
    (onFlushModeUpdated m u).initialClientSeqNum = u.initialClientSeqNum ∧
    (onFlushModeUpdated m u).clientId = u.clientId ∧
    (onFlushModeUpdated m u).isProcessingBatch = u.isProcessingBatch ∧
    (onFlushModeUpdated m u).pendingBatchBeginMessage = u.pendingBatchBeginMessage ∧
    (onFlushModeUpdated m u).containerRuntime = u.containerRuntime := by
  by_cases hm : m = FlushMode.Automatic
  · subst hm
    cases hlast : u.pendingStates.getLast? with
    | none =>
      simp [onFlushModeUpdated, hlast, countMessages_append, countMessages,
        isMessageState]
    | some x =>
      cases x with
      | message pm =>
        simp [onFlushModeUpdated, hlast, countMessages_append, countMessages,
          isMessageState]
      | flushMode fm =>
        cases fm with
        | Automatic =>
          simp [onFlushModeUpdated, hlast, countMessages_append, countMessages,
            isMessageState]
        | Manual =>
          have hd := countMessages_dropLast u.pendingStates _ hlast (by rfl)
          simp [onFlushModeUpdated, hlast, hd]
      | flush =>
        have hd := countMessages_dropLast u.pendingStates _ hlast (by rfl)
        simp [onFlushModeUpdated, hlast, countMessages_append, hd,
          countMessages_nonmessage, isMessageState]
  · cases m with
    | Automatic => exact absurd rfl hm
    | Manual =>
      simp [onFlushModeUpdated, countMessages_append, countMessages, isMessageState]

/-- `onFlush` at most pushes one flush marker: message count, counter and
runtime are untouched. -/
theorem onFlush_effect (u : PendingStateManager) :
    countMessages (onFlush u).pendingStates = countMessages u.pendingStates ∧
    (onFlush u).pendingMessagesCount = u.pendingMessagesCount ∧
    (onFlush u).initialStates = u.initialStates ∧
    (onFlush u).initialClientId = u.initialClientId ∧
    (onFlush u).initialClientSeqNum = u.initialClientSeqNum ∧
    (onFlush u).clientId = u.clientId ∧
    (onFlush u).isProcessingBatch = u.isProcessingBatch ∧
    (onFlush u).pendingBatchBeginMessage = u.pendingBatchBeginMessage ∧
    (onFlush u).containerRuntime = u.containerRuntime := by
  by_cases hm : u.containerRuntime.flushMode = FlushMode.Automatic
  · simp [onFlush, hm]
  · cases hlast : u.pendingStates.getLast? with
    | none => simp [onFlush, hm, hlast]
    | some x =>
      cases x <;>
        simp [onFlush, hm, hlast, countMessages_append, countMessages_nonmessage,
          isMessageState]

/-- Running a list of submission-side commands never throws; it adds one
Message per `submit` command to the pending queue and the counter, and leaves
the initial queues, the session client id and the runtime's observable state
(events, connection, client id) untouched. -/
theorem runSubmission_spec (cmds : List HostCmd) :
    ∀ s : PendingStateManager, cmds.all isSubmissionCmd = true →
    ∃ s' : PendingStateManager, runHostCmds cmds s = MRes.ok () s' ∧
      s'.pendingMessagesCount = s.pendingMessagesCount + numSubmits cmds ∧
      countMessages s'.pendingStates =
        countMessages s.pendingStates + numSubmits cmds ∧
      s'.initialStates = s.initialStates ∧
      s'.initialClientId = s.initialClientId ∧
      s'.initialClientSeqNum = s.initialClientSeqNum ∧
      s'.clientId = s.clientId ∧
      s'.containerRuntime.events = s.containerRuntime.events ∧
      s'.containerRuntime.connected = s.containerRuntime.connected ∧
      s'.containerRuntime.clientId = s.containerRuntime.clientId := by
  induction cmds with
  | nil =>
    intro s _
    exact ⟨s, rfl, by simp [numSubmits], by simp [numSubmits], rfl, rfl, rfl, rfl,
      rfl, rfl, rfl⟩
  | cons c cs ih =>
    intro s hall
    simp only [List.all_cons, Bool.and_eq_true] at hall
    cases c with
    | submit t cnt lom om =>
      obtain ⟨s', hrun, h1, h2, h3, h4, h5, h6, h7, h8, h9⟩ :=
        ih (submitWithFreshCsn t cnt lom om s) hall.2
      simp only [submitWithFreshCsn, onSubmitMessage] at h1 h2 h3 h4 h5 h6 h7 h8 h9
      refine ⟨s', ?_, ?_, ?_, h3, h4, h5, h6, h7, h8, h9⟩
      · simp [runHostCmds, runHostCmd, hrun]
      · rw [h1]
        simp [numSubmits]
        ring
      · rw [h2, countMessages_append]
        simp [numSubmits, countMessages, isMessageState]
        ring
    | setFlushMode m =>
      by_cases hsame : s.containerRuntime.flushMode = m
      · obtain ⟨s', hrun, h1, h2, h3, h4, h5, h6, h7, h8, h9⟩ := ih s hall.2
        refine ⟨s', ?_, ?_, ?_, ?_, ?_, ?_, ?_, ?_, ?_, ?_⟩ <;>
          simp [runHostCmds, runHostCmd, hostSetFlushMode, hsame, hrun, h1, h2,
            h3, h4, h5, h6, h7, h8, h9, numSubmits]
      · obtain ⟨e1, e2, e3, e4, e5, e6, e7, e8, e9⟩ :=
          onFlushModeUpdated_effect m
            { s with containerRuntime := { s.containerRuntime with flushMode := m } }
        obtain ⟨s', hrun, h1, h2, h3, h4, h5, h6, h7, h8, h9⟩ :=
          ih (onFlushModeUpdated m
            { s with containerRuntime := { s.containerRuntime with flushMode := m } })
            hall.2
        simp only at e1 e2 e3 e4 e5 e6 e7 e8 e9
        refine ⟨s', ?_, ?_, ?_, ?_, ?_, ?_, ?_, ?_, ?_, ?_⟩ <;>
          simp [runHostCmds, runHostCmd, hostSetFlushMode, hsame, hrun, h1, h2,
            h3, h4, h5, h6, h7, h8, h9, e1, e2, e3, e4, e5, e6, e8, e9, numSubmits]
    | flush =>
      obtain ⟨e1, e2, e3, e4, e5, e6, e7, e8, e9⟩ := onFlush_effect s
      obtain ⟨s', hrun, h1, h2, h3, h4, h5, h6, h7, h8, h9⟩ := ih (onFlush s) hall.2
      refine ⟨s', ?_, ?_, ?_, ?_, ?_, ?_, ?_, ?_, ?_, ?_⟩ <;>
        simp [runHostCmds, runHostCmd, hostFlush, hrun, h1, h2, h3, h4, h5, h6,
          h7, h8, h9, e1, e2, e3, e4, e5, e6, e8, e9, numSubmits]
    | ack msg l => simp [isSubmissionCmd] at hall
    | replay => simp [isSubmissionCmd] at hall
    | connect c cid => simp [isSubmissionCmd] at hall

/-- `resubmittedOps` distributes over append. -/
theorem resubmittedOps_append (a b : List RuntimeEvent) :
    resubmittedOps (a ++ b) = resubmittedOps a ++ resubmittedOps b := by
  induction a with
  | nil => rfl
  | cons e a ih => cases e <;> simp [resubmittedOps, ih]

/-- Rebase calls contribute no resubmissions. -/
theorem resubmittedOps_rebaseEvents (l : List IPendingState) :
    resubmittedOps (rebaseEvents l) = [] := by
  induction l with
  | nil => rfl
  | cons x l ih => cases x <;> simp [rebaseEvents, resubmittedOps, ih]

/-- The resubmissions produced by dispatching a queue are exactly its
Messages, in order, with matching messageType, content and localOpMetadata. -/
theorem resubmittedOps_dispatch (l : List IPendingState) :
    resubmittedOps (l.map dispatchEvent) = pendingMessageOps l := by
  induction l with
  | nil => rfl
  | cons x l ih => cases x <;> simp [dispatchEvent, resubmittedOps,
      pendingMessageOps, ih]

/-- C4 counterexample: a call sequence with flush-mode changes but no
`onSubmit` leaves a FlushModeChange entry pending, yet `serialize` returns
absent (no pending Messages), so a core constructed from that serialized
state replays nothing: the runtime never observes the `setFlushMode` call the
claim requires. -/
theorem C4_counterexample :
    (okState (runHostCmds [HostCmd.setFlushMode FlushMode.Manual] (freshPSM rtA))).map
        (fun s => (s.pendingStates, getLocalState s)) =
      some ([IPendingState.flushMode FlushMode.Manual], none) ∧
    (okState (replayPendingStates (initPendingStateManager c7Rt none))).map
        (fun s3 => s3.containerRuntime.events) = some [] := by
  refine ⟨by decide, by decide⟩

/-- C4 (amended): for every sequence of submission-side calls containing at
least one onSubmit, serializing the state, constructing a new core with the
serialized state, and replaying on a connected runtime makes the runtime
observe exactly one dispatch per serialized entry, in order: the `reSubmit`
calls carry the same messageType, content and localOpMetadata as the pending
Messages, in the same order, and FlushModeChange/FlushMarker entries are
replayed in order as `setFlushMode`/`flush` calls (followed by the final
restore of the saved flush mode). -/
theorem C4_amended (cmds : List HostCmd) (rt1 rt2 : RuntimeModel)
    (hall : cmds.all isSubmissionCmd = true)
    (hsub : 0 < numSubmits cmds)
    (hconn2 : rt2.connected = true)
    (hcid2 : ¬ (none : Option String) = rt2.clientId)
    (hev2 : rt2.events = []) :
    ∃ (s s3 : PendingStateManager) (st : IPendingLocalState),
      runHostCmds cmds (freshPSM rt1) = MRes.ok () s ∧
      getLocalState s = some st ∧
      st.pendingStates = s.pendingStates ∧
      replayPendingStates (initPendingStateManager rt2 (some st)) =
        MRes.ok () s3 ∧
      s3.containerRuntime.events =
        rebaseEvents s.pendingStates ++ s.pendingStates.map dispatchEvent ++
          [RuntimeEvent.setFlushMode rt2.flushMode] ∧
      resubmittedOps s3.containerRuntime.events =
        pendingMessageOps s.pendingStates := by
  obtain ⟨s, hrun, h1, h2, h3, h4, h5, h6, h7, h8, h9⟩ :=
    runSubmission_spec cmds (freshPSM rt1) hall
  simp only [freshPSM, initPendingStateManager] at h1 h2 h3 h6
  have hcount : s.pendingMessagesCount = numSubmits cmds := by
    rw [h1]; simp
  have hcm : countMessages s.pendingStates = numSubmits cmds := by
    rw [h2]; simp [countMessages_nil]
  have hhas : hasPendingMessages s = true := by
    simp [hasPendingMessages, hcount]
    omega
  have hser : getLocalState s =
      some { clientId := s.clientId, pendingStates := s.pendingStates } := by
    simp [getLocalState, hhas]
  have hne : ¬ s.pendingStates = [] := by
    intro hnil
    rw [hnil] at hcm
    simp [countMessages_nil] at hcm
    omega
  obtain ⟨s3, app, hrep, hp1, hp2, hp3, hp4, hp5, hp6, hp7, hp8, hp9, hp10, hp11⟩ :=
    replayPendingStates_spec
      (initPendingStateManager rt2
        (some { clientId := s.clientId, pendingStates := s.pendingStates }))
      (by simp [initPendingStateManager, hconn2])
      (by simp [initPendingStateManager, hcid2])
  simp only [initPendingStateManager] at hp8
  refine ⟨s, s3, { clientId := s.clientId, pendingStates := s.pendingStates },
    hrun, hser, rfl, hrep, ?_, ?_⟩
  · rw [hp8]
    simp [hev2, hne]
  · rw [hp8]
    simp [hev2, hne, resubmittedOps_append, resubmittedOps_rebaseEvents,
      resubmittedOps_dispatch, resubmittedOps]

/-- C4 witness: the amended round-trip evaluated on a single submit replayed
onto the connected runtime `c7Rt`. -/
theorem C4_witness :
    ∃ (s s3 : PendingStateManager) (st : IPendingLocalState),
      runHostCmds [HostCmd.submit "op" 5 7 none] (freshPSM rtA) = MRes.ok () s ∧
      getLocalState s = some st ∧
      st.pendingStates = s.pendingStates ∧
      replayPendingStates (initPendingStateManager c7Rt (some st)) =
        MRes.ok () s3 ∧
      s3.containerRuntime.events =
        rebaseEvents s.pendingStates ++ s.pendingStates.map dispatchEvent ++
          [RuntimeEvent.setFlushMode c7Rt.flushMode] ∧
      resubmittedOps s3.containerRuntime.events =
        pendingMessageOps s.pendingStates :=
  C4_amended [HostCmd.submit "op" 5 7 none] rtA c7Rt (by decide) (by decide)
    (by decide) (by decide) (by decide)

/-- `closeFree` distributes over append. -/
theorem closeFree_append (a b : List RuntimeEvent) :
    closeFree (a ++ b) = (closeFree a && closeFree b) := by
  simp [closeFree, List.all_append]

/-- Rebase events carry no close. -/
theorem closeFree_rebaseEvents (l : List IPendingState) :
    closeFree (rebaseEvents l) = true := by
  induction l with
  | nil => rfl
  | cons x l ih => cases x <;> simp [rebaseEvents, closeFree, isCloseEvent] at ih ⊢ <;>
      exact ih

/-- Dispatch events carry no close. -/
theorem closeFree_dispatch (l : List IPendingState) :
    closeFree (l.map dispatchEvent) = true := by
  induction l with
  | nil => rfl
  | cons x l ih => cases x <;> simp [dispatchEvent, closeFree, isCloseEvent] at ih ⊢ <;>
      exact ih

/-- When `batchEndCore` succeeds, it only clears the batch tracker. -/
theorem batchEndCore_ok {m : ISequencedDocumentMessage} {t : PendingStateManager}
    {v : Unit} {t' : PendingStateManager}
    (h : batchEndCore m t = MRes.ok v t') :
    t' = { t with pendingBatchBeginMessage := none, isProcessingBatch := false } := by
  cases hb : t.pendingBatchBeginMessage with
  | none => simp [batchEndCore, hb] at h
  | some b =>
    simp only [batchEndCore, hb] at h
    split_ifs at h <;> simp [clearBatch] at h <;> exact h.symm

/-- When `maybeProcessBatchEnd` succeeds, the head was a Message (no-op), or
the batch tracker was cleared, possibly also shifting a leading
FlushModeChange(Automatic) entry. -/
theorem maybeProcessBatchEnd_ok {m : ISequencedDocumentMessage}
    {t : PendingStateManager} {v : Unit} {t' : PendingStateManager}
    (h : maybeProcessBatchEnd m t = MRes.ok v t') :
    (∃ pm rest, t.pendingStates = IPendingState.message pm :: rest ∧ t' = t) ∨
    t' = { t with pendingBatchBeginMessage := none, isProcessingBatch := false } ∨
    (∃ rest, t.pendingStates = IPendingState.flushMode FlushMode.Automatic :: rest ∧
      t' = { t with pendingStates := rest
                    pendingBatchBeginMessage := none
                    isProcessingBatch := false }) := by
  cases hp : t.pendingStates with
  | nil => simp [maybeProcessBatchEnd, peekNextPendingState, hp] at h
  | cons x rest =>
    cases x with
    | message pm =>
      simp [maybeProcessBatchEnd, peekNextPendingState, hp] at h
      exact Or.inl ⟨pm, rest, rfl, h.symm⟩
    | flushMode fm =>
      cases fm with
      | Automatic =>
        simp only [maybeProcessBatchEnd, peekNextPendingState, hp] at h
        simp at h
        have := batchEndCore_ok h
        refine Or.inr (Or.inr ⟨rest, rfl, ?_⟩)
        rw [this]
        simp [hp]
      | Manual =>
        simp [maybeProcessBatchEnd, peekNextPendingState, hp] at h
    | flush =>
      simp only [maybeProcessBatchEnd, peekNextPendingState, hp] at h
      simp at h
      have := batchEndCore_ok h
      refine Or.inr (Or.inl ?_)
      rw [this]
      simp [hp]

/-- When `maybeProcessBatchBegin` succeeds, either the head was a Message
(no-op) or a non-Message marker was consumed and the batch tracker set. -/
theorem maybeProcessBatchBegin_ok {m : ISequencedDocumentMessage}
    {t : PendingStateManager} {v : Unit} {t' : PendingStateManager}
    (h : maybeProcessBatchBegin m t = MRes.ok v t') :
    t' = t ∨
    (∃ x rest, t.pendingStates = x :: rest ∧ isMessageState x = false ∧
      t' = { t with pendingBatchBeginMessage := some m
                    isProcessingBatch := true
                    pendingStates := rest }) := by
  cases hp : t.pendingStates with
  | nil => simp [maybeProcessBatchBegin, peekNextPendingState, hp] at h
  | cons x rest =>
    cases x with
    | message pm =>
      simp [maybeProcessBatchBegin, peekNextPendingState, hp] at h
      exact Or.inl h.symm
    | flushMode fm =>
      cases fm with
      | Automatic =>
        simp [maybeProcessBatchBegin, peekNextPendingState, hp] at h
      | Manual =>
        have hstep : maybeProcessBatchBegin m t = batchBeginCore m t := by
          simp [maybeProcessBatchBegin, peekNextPendingState, hp]
        rw [hstep] at h
        simp only [batchBeginCore] at h
        split_ifs at h with hg
        simp at h
        subst h
        refine Or.inr ⟨IPendingState.flushMode FlushMode.Manual, rest, rfl, rfl, ?_⟩
        simp [hp]
    | flush =>
      have hstep : maybeProcessBatchBegin m t = batchBeginCore m t := by
        simp [maybeProcessBatchBegin, peekNextPendingState, hp]
      rw [hstep] at h
      simp only [batchBeginCore] at h
      split_ifs at h with hg
      simp at h
      subst h
      refine Or.inr ⟨IPendingState.flush, rest, rfl, rfl, ?_⟩
      simp [hp]

/-- Invariant step for the match-and-pop part of local ack handling: the
initial queues are untouched, and unless a close was recorded the difference
between the message counter and the actual message count of the queue is
preserved. -/
theorem processLocalMatch_invStep (ack : ISequencedDocumentMessage)
    (t : PendingStateManager) {v : Option Nat} {t' : PendingStateManager}
    (hok : processLocalMatch ack t = MRes.ok v t') :
    t'.initialStates = t.initialStates ∧
    t'.initialClientId = t.initialClientId ∧
    (closeFree t'.containerRuntime.events = true →
      t'.pendingMessagesCount - countMessages t'.pendingStates =
        t.pendingMessagesCount - countMessages t.pendingStates) := by
  cases hp : t.pendingStates with
  | nil => simp [processLocalMatch, peekNextPendingState, hp] at hok
  | cons x rest =>
    cases x with
    | message m =>
      by_cases hcsn : m.clientSequenceNumber = ack.clientSequenceNumber
      · cases hbatch : t.isProcessingBatch with
        | false =>
          have hrun : processLocalMatch ack t = MRes.ok (some m.localOpMetadata)
              { t with pendingStates := rest
                       pendingMessagesCount := t.pendingMessagesCount - 1 } := by
            simp [processLocalMatch, peekNextPendingState, hp, hcsn, hbatch]
          rw [hrun] at hok
          simp at hok
          obtain ⟨hv, hs⟩ := hok
          subst hs
          refine ⟨rfl, rfl, fun _ => ?_⟩
          simp [hp, countMessages_cons (IPendingState.message m) rest,
            countMessages, isMessageState]
          ring
        | true =>
          rcases hres : maybeProcessBatchEnd ack
              { t with pendingStates := rest
                       pendingMessagesCount := t.pendingMessagesCount - 1
                       isProcessingBatch := true } with ⟨u5, s5⟩ | ⟨e, s'⟩
          · have hchar := maybeProcessBatchEnd_ok hres
            have hrun : processLocalMatch ack t =
                MRes.ok (some m.localOpMetadata) s5 := by
              simp [processLocalMatch, peekNextPendingState, hp, hcsn, hbatch, hres]
            rw [hrun] at hok
            simp at hok
            obtain ⟨hv, hs⟩ := hok
            subst hs
            have hcmrest : countMessages (IPendingState.message m :: rest) =
                1 + countMessages rest := by
              rw [countMessages_cons]
              simp [countMessages, isMessageState]
            rcases hchar with ⟨pm2, rest2, hps2, hs5⟩ | hs5 | ⟨rest2, hps2, hs5⟩ <;>
              subst hs5 <;>
              refine ⟨rfl, rfl, fun _ => ?_⟩ <;>
              simp [hp, hcmrest]
            · ring
            · ring
            · simp only at hps2
              rw [hps2, countMessages_cons]
              simp [countMessages, isMessageState]
              ring
          · have hrun : processLocalMatch ack t = MRes.error e s' := by
              simp [processLocalMatch, peekNextPendingState, hp, hcsn, hbatch, hres]
            rw [hrun] at hok
            simp at hok
      · have hrun : processLocalMatch ack t = MRes.ok none
            (closeWithError ack m.clientSequenceNumber
              { t with pendingStates := rest }) := by
          simp [processLocalMatch, peekNextPendingState, hp, hcsn]
        rw [hrun] at hok
        simp at hok
        obtain ⟨hv, hs⟩ := hok
        subst hs
        refine ⟨rfl, rfl, fun hcf => ?_⟩
        simp [closeWithError, closeFree_append, closeFree, isCloseEvent] at hcf
    | flushMode fm =>
      simp [processLocalMatch, peekNextPendingState, hp] at hok
    | flush =>
      simp [processLocalMatch, peekNextPendingState, hp] at hok

/-- Invariant step for full local ack handling (batch begin included). -/
theorem processPendingLocalMessage_invStep (ack : ISequencedDocumentMessage)
    (t : PendingStateManager) {v : Option Nat} {t' : PendingStateManager}
    (hok : processPendingLocalMessage ack t = MRes.ok v t') :
    t'.initialStates = t.initialStates ∧
    t'.initialClientId = t.initialClientId ∧
    (closeFree t'.containerRuntime.events = true →
      t'.pendingMessagesCount - countMessages t'.pendingStates =
        t.pendingMessagesCount - countMessages t.pendingStates) := by
  rcases hbeg : maybeProcessBatchBegin ack t with ⟨u1, t1⟩ | ⟨e, t1⟩
  · have hok' : processLocalMatch ack t1 = MRes.ok v t' := by
      simpa [processPendingLocalMessage, hbeg] using hok
    obtain ⟨g1, g2, g3⟩ := processLocalMatch_invStep ack t1 hok'
    rcases maybeProcessBatchBegin_ok hbeg with h1 | ⟨x, rest, hpx, hxm, h1⟩ <;>
      subst h1
    · exact ⟨g1, g2, g3⟩
    · simp only at g1 g2 g3
      refine ⟨g1, g2, fun hcf => ?_⟩
      rw [g3 hcf, hpx, countMessages_cons, countMessages_nonmessage x hxm]
      ring
  · simp [processPendingLocalMessage, hbeg] at hok

/-- A successful `processLocalMatch` appends at most one close event. -/
theorem processLocalMatch_events (ack : ISequencedDocumentMessage)
    (t : PendingStateManager) {v : Option Nat} {t' : PendingStateManager}
    (hok : processLocalMatch ack t = MRes.ok v t') :
    t'.containerRuntime.events = t.containerRuntime.events ∨
    ∃ ev, t'.containerRuntime.events = t.containerRuntime.events ++ [ev] := by
  rcases processLocalMatch_spec ack t with
      ⟨e, s', heq, hev⟩ | ⟨m, rest, s', _, _, heq, hev⟩ |
      ⟨m, rest, s', _, _, heq, hev⟩
  · rw [heq] at hok
    simp at hok
  · rw [heq] at hok
    simp at hok
    left
    rw [← hok.2]
    exact hev
  · rw [heq] at hok
    simp at hok
    right
    rw [← hok.2]
    exact ⟨_, hev⟩

/-- A successful local ack appends at most one close event. -/
theorem processPendingLocalMessage_events (ack : ISequencedDocumentMessage)
    (t : PendingStateManager) {v : Option Nat} {t' : PendingStateManager}
    (hok : processPendingLocalMessage ack t = MRes.ok v t') :
    t'.containerRuntime.events = t.containerRuntime.events ∨
    ∃ ev, t'.containerRuntime.events = t.containerRuntime.events ++ [ev] := by
  rcases hbeg : maybeProcessBatchBegin ack t with ⟨u1, t1⟩ | ⟨e, t1⟩
  · have hok' : processLocalMatch ack t1 = MRes.ok v t' := by
      simpa [processPendingLocalMessage, hbeg] using hok
    have hev := processLocalMatch_events ack t1 hok'
    rcases maybeProcessBatchBegin_ok hbeg with h1 | ⟨x, rest, hpx, hxm, h1⟩ <;>
      subst h1
    · exact hev
    · simpa using hev
  · simp [processPendingLocalMessage, hbeg] at hok

/-- The C2 invariant: no rehydrated state, and — unless the container was
closed with a DataCorruption error — the message counter agrees with the
number of Message entries in the pending queue. -/
def InvC2 (s : PendingStateManager) : Prop :=
  s.initialStates = [] ∧ s.initialClientId = none ∧
  (closeFree s.containerRuntime.events = true →
    s.pendingMessagesCount = countMessages s.pendingStates)

/-- `eqClientIds` never matches an undefined `initialClientId`. -/
theorem eqClientIds_none (a : Option String) : eqClientIds a none = false := by
  cases a <;> rfl

/-- Every host command preserves the C2 invariant. -/
theorem runHostCmd_invC2 (c : HostCmd) (s s' : PendingStateManager)
    (hinv : InvC2 s) (hrun : runHostCmd c s = MRes.ok () s') : InvC2 s' := by
  obtain ⟨hi, hic, hcnt⟩ := hinv
  cases c with
  | submit t cnt lom om =>
    simp only [runHostCmd, MRes.ok.injEq] at hrun
    rw [← hrun.2]
    refine ⟨by simp [submitWithFreshCsn, onSubmitMessage, hi],
      by simp [submitWithFreshCsn, onSubmitMessage, hic], fun hcf => ?_⟩
    have hcf' : closeFree s.containerRuntime.events = true := by
      simpa [submitWithFreshCsn, onSubmitMessage] using hcf
    simp [submitWithFreshCsn, onSubmitMessage, countMessages_append,
      hcnt hcf', countMessages, isMessageState]
  | setFlushMode m =>
    simp only [runHostCmd, MRes.ok.injEq] at hrun
    rw [← hrun.2]
    by_cases hsame : s.containerRuntime.flushMode = m
    · simp only [hostSetFlushMode, hsame, if_true]
      exact ⟨hi, hic, hcnt⟩
    · obtain ⟨e1, e2, e3, e4, e5, e6, e7, e8, e9⟩ :=
        onFlushModeUpdated_effect m
          { s with containerRuntime := { s.containerRuntime with flushMode := m } }
      simp only at e1 e2 e3 e4 e9
      simp only [hostSetFlushMode, hsame, if_false, ite_false]
      refine ⟨by rw [e3]; exact hi, by rw [e4]; exact hic, fun hcf => ?_⟩
      rw [e2, e1]
      apply hcnt
      rw [e9] at hcf
      simpa using hcf
  | flush =>
    simp only [runHostCmd, MRes.ok.injEq] at hrun
    rw [← hrun.2]
    obtain ⟨e1, e2, e3, e4, e5, e6, e7, e8, e9⟩ := onFlush_effect s
    refine ⟨by rw [hostFlush, e3]; exact hi, by rw [hostFlush, e4]; exact hic,
      fun hcf => ?_⟩
    rw [hostFlush, e2, e1]
    apply hcnt
    rw [hostFlush, e9] at hcf
    exact hcf
  | connect cn cid =>
    simp only [runHostCmd, MRes.ok.injEq] at hrun
    rw [← hrun.2]
    exact ⟨hi, hic, hcnt⟩
  | ack msg l =>
    simp only [runHostCmd] at hrun
    by_cases hch : msg.msgType = chunkedOpType
    · simp [processMessage, hch] at hrun
      rw [← hrun]
      exact ⟨hi, hic, hcnt⟩
    · cases l with
      | true =>
        rcases hpl : processPendingLocalMessage msg s with ⟨v, t1⟩ | ⟨e, t1⟩
        · have hs' : t1 = s' := by
            simp [processMessage, hch, hpl] at hrun
            exact hrun
          subst hs'
          obtain ⟨g1, g2, g3⟩ := processPendingLocalMessage_invStep msg s hpl
          refine ⟨g1.trans hi, g2.trans hic, fun hcf => ?_⟩
          have hdiff := g3 hcf
          have hcf0 : closeFree s.containerRuntime.events = true := by
            rcases processPendingLocalMessage_events msg s hpl with hev | ⟨ev, hev⟩
            · rw [hev] at hcf
              exact hcf
            · rw [hev, closeFree_append] at hcf
              simp at hcf
              exact hcf.1
          have hbase := hcnt hcf0
          omega
        · simp [processMessage, hch, hpl] at hrun
      | false =>
        have hrem : processRemoteMessage msg s =
            MRes.ok { localAck := false, localOpMetadata := none } s := by
          simp [processRemoteMessage, hi, processRemoteRebaseLoop, hic,
            eqClientIds_none]
        simp [processMessage, hch, hrem] at hrun
        rw [← hrun]
        exact ⟨hi, hic, hcnt⟩
  | replay =>
    simp only [runHostCmd] at hrun
    by_cases hconn : s.containerRuntime.connected = true
    · by_cases hcid : s.clientId = s.containerRuntime.clientId
      · simp [replayPendingStates, hcid, hconn] at hrun
      · obtain ⟨s2, app, hrep, hp1, hp2, hp3, hp4, hp5, hp6, hp7, hp8, hp9,
          hp10, hp11⟩ := replayPendingStates_spec s hconn hcid
        rw [hrep] at hrun
        simp at hrun
        subst hrun
        refine ⟨hp3, hp10.trans hic, fun hcf => ?_⟩
        rw [hp9, hp1]
        by_cases hP : s.pendingStates ++ s.initialStates = []
        · rw [if_pos hP]
          have happ : countMessages app = 0 := by
            rw [hp2, hP, countMessages_nil]
          rw [happ]
          have hcf0 : closeFree s.containerRuntime.events = true := by
            rw [hp8] at hcf
            simp [closeFree_append, hP] at hcf
            exact hcf.1
          have := hcnt hcf0
          rw [hi] at hP
          simp at hP
          rw [this, hP, countMessages_nil]
        · rw [if_neg hP]
          exact hp2.symm
    · simp [replayPendingStates, hconn] at hrun

/-- Running a command list preserves the C2 invariant. -/
theorem runHostCmds_invC2 (cmds : List HostCmd) :
    ∀ s s' : PendingStateManager, InvC2 s →
    runHostCmds cmds s = MRes.ok () s' → InvC2 s' := by
  induction cmds with
  | nil =>
    intro s s' hinv hrun
    simp [runHostCmds] at hrun
    rw [← hrun]
    exact hinv
  | cons c cs ih =>
    intro s s' hinv hrun
    rcases hstep : runHostCmd c s with ⟨u, s1⟩ | ⟨e, s1⟩
    · have hstep' : runHostCmd c s = MRes.ok () s1 := by
        cases u
        exact hstep
      have h1 := runHostCmd_invC2 c s s1 hinv hstep'
      have hrest : runHostCmds cs s1 = MRes.ok () s' := by
        simpa [runHostCmds, hstep] using hrun
      exact ih s1 s' h1 hrest
    · simp [runHostCmds, hstep] at hrun

/-- C2 (amended): in every state reachable by any sequence of host commands
(submits, flush-mode changes, flushes, acks, connection changes and replays)
from a core constructed without serialized initial state, as long as
`runtime.closeFn` has not been invoked, `pendingMessageCount` equals the
number of Message entries in the pending queue. -/
theorem C2_amended (cmds : List HostCmd) (rt : RuntimeModel)
    (s' : PendingStateManager)
    (hev : rt.events = [])
    (hrun : runHostCmds cmds (freshPSM rt) = MRes.ok () s')
    (hcf : closeFree s'.containerRuntime.events = true) :
    s'.pendingMessagesCount = countMessages s'.pendingStates := by
  have hinit : InvC2 (freshPSM rt) := by
    refine ⟨rfl, rfl, fun _ => ?_⟩
    simp [freshPSM, initPendingStateManager, countMessages_nil]
  exact (runHostCmds_invC2 cmds (freshPSM rt) s' hinit hrun).2.2 hcf

def c2Cmds : List HostCmd :=
  [HostCmd.setFlushMode FlushMode.Manual,
   HostCmd.submit "op" 5 7 none, HostCmd.submit "op" 6 8 none,
   HostCmd.flush, HostCmd.connect true (some "C9"), HostCmd.replay]

def c2Wit : PendingStateManager :=
  { pendingStates := [IPendingState.message { messageType := "op", clientSequenceNumber := 2, referenceSequenceNumber := 0, content := 5, localOpMetadata := 7, opMetadata := none }, IPendingState.message { messageType := "op", clientSequenceNumber := 3, referenceSequenceNumber := 0, content := 6, localOpMetadata := 8, opMetadata := none }],
    initialStates := [],
    initialClientId := none,
    initialClientSeqNum := -1,
    pendingMessagesCount := 2,
    isProcessingBatch := false,
    pendingBatchBeginMessage := none,
    clientId := some "C9",
    containerRuntime := { connected := true, clientId := some "C9", flushMode := FlushMode.Manual, nextClientSequenceNumber := 4, referenceSequenceNumber := 0, events := [RuntimeEvent.setFlushMode FlushMode.Manual, RuntimeEvent.reSubmit "op" 5 7 none, RuntimeEvent.reSubmit "op" 6 8 none, RuntimeEvent.flush, RuntimeEvent.setFlushMode FlushMode.Manual] } }

/-- C2 witness: the amended invariant evaluated on a concrete session —
Manual mode, two submits, a flush, a connect and a replay; the run
succeeds, never closes, and leaves the count equal to the Message count. -/
theorem C2_witness :
    runHostCmds c2Cmds (freshPSM rtA) = MRes.ok () c2Wit ∧
    closeFree c2Wit.containerRuntime.events = true ∧
    c2Wit.pendingMessagesCount = countMessages c2Wit.pendingStates :=
  ⟨by decide, by decide,
   C2_amended c2Cmds rtA c2Wit (by decide) (by decide) (by decide)⟩

/-- The between-messages constraint on one adjacent pair of pending entries:
whenever one of the two is a `flush` marker, the other must be a Message. -/
def FlushBetween (a b : IPendingState) : Prop :=
  (a = IPendingState.flush → isMessageState b = true) ∧
  (b = IPendingState.flush → isMessageState a = true)

instance (a b : IPendingState) : Decidable (FlushBetween a b) :=
  inferInstanceAs (Decidable
    ((a = IPendingState.flush → isMessageState b = true) ∧
     (b = IPendingState.flush → isMessageState a = true)))

/-- `FlushOk l`: the head of `l` is not a `flush` marker, and every adjacent
pair satisfies `FlushBetween` — so every `flush` marker has a Message
immediately before it and, unless it is the tail, a Message immediately
after it. -/
def FlushOk (l : List IPendingState) : Prop :=
  l.Chain' FlushBetween ∧ l.head? ≠ some IPendingState.flush

/-- Executable adjacent-pair check underlying `FlushOk`. -/
def chainB : List IPendingState → Bool
  | [] => true
  | [_] => true
  | a :: b :: t => decide (FlushBetween a b) && chainB (b :: t)

/-- `chainB` computes `Chain' FlushBetween`. -/
theorem chainB_iff (l : List IPendingState) :
    chainB l = true ↔ l.Chain' FlushBetween := by
  induction l with
  | nil => simp [chainB]
  | cons a t ih =>
    cases t with
    | nil => simp [chainB]
    | cons b u =>
      rw [List.chain'_cons, ← ih]
      simp [chainB, Bool.and_eq_true, decide_eq_true_eq]

/-- `FlushOk` through its executable form. -/
theorem flushOk_iff_aux (l : List IPendingState) :
    (chainB l = true ∧ l.head? ≠ some IPendingState.flush) ↔ FlushOk l := by
  unfold FlushOk
  rw [chainB_iff]

instance (l : List IPendingState) : Decidable (FlushOk l) :=
  decidable_of_decidable_of_iff (flushOk_iff_aux l)

/-- The inductive invariant behind C9: the pending queue satisfies `FlushOk`,
and a `flush` marker can be the tail only while the runtime flush mode is
`Manual` (so the next flush-mode change will pop it, never bury it). -/
def InvC9 (s : PendingStateManager) : Prop :=
  FlushOk s.pendingStates ∧
  (s.pendingStates.getLast? = some IPendingState.flush →
    s.containerRuntime.flushMode = FlushMode.Manual)

/-- A Message on the right satisfies `FlushBetween` with anything. -/
theorem flushBetween_message (a : IPendingState) (m : IPendingMessage) :
    FlushBetween a (IPendingState.message m) :=
  ⟨fun _ => rfl, fun h => nomatch h⟩

/-- The empty queue is `FlushOk`. -/
theorem flushOk_nil : FlushOk ([] : List IPendingState) :=
  ⟨List.chain'_nil, by simp⟩

/-- Appending a Message preserves `FlushOk`. -/
theorem flushOk_snoc_message (l : List IPendingState) (m : IPendingMessage)
    (h : FlushOk l) : FlushOk (l ++ [IPendingState.message m]) := by
  constructor
  · rw [List.chain'_append]
    refine ⟨h.1, List.chain'_singleton _, fun a _ y hy => ?_⟩
    simp at hy
    subst hy
    exact flushBetween_message a m
  · cases l with
    | nil => simp
    | cons a t => simpa using h.2

/-- Appending a non-`flush` entry preserves `FlushOk` provided the current
tail is not a `flush` marker. -/
theorem flushOk_snoc_other (l : List IPendingState) (x : IPendingState)
    (h : FlushOk l) (hx : x ≠ IPendingState.flush)
    (hl : l.getLast? ≠ some IPendingState.flush) : FlushOk (l ++ [x]) := by
  constructor
  · rw [List.chain'_append]
    refine ⟨h.1, List.chain'_singleton _, fun a ha y hy => ?_⟩
    simp at hy
    subst hy
    rw [Option.mem_def] at ha
    refine ⟨fun haf => ?_, fun hxf => absurd hxf hx⟩
    exact absurd (haf ▸ ha) hl
  · cases l with
    | nil => simpa using hx
    | cons a t => simpa using h.2

/-- Appending a `flush` marker preserves `FlushOk` when the tail is a
Message. -/
theorem flushOk_snoc_flush (l : List IPendingState) (m : IPendingMessage)
    (h : FlushOk l) (hl : l.getLast? = some (IPendingState.message m)) :
    FlushOk (l ++ [IPendingState.flush]) := by
  constructor
  · rw [List.chain'_append]
    refine ⟨h.1, List.chain'_singleton _, fun a ha y hy => ?_⟩
    simp at hy
    subst hy
    rw [Option.mem_def, hl] at ha
    obtain rfl := Option.some.inj ha
    exact ⟨fun hmf => (nomatch hmf), fun _ => rfl⟩
  · cases l with
    | nil => simp at hl
    | cons a t => simpa using h.2

/-- Removing the last entry preserves `FlushOk` (stated on a snoc shape). -/
theorem flushOk_of_snoc (l : List IPendingState) (x : IPendingState)
    (h : FlushOk (l ++ [x])) : FlushOk l := by
  constructor
  · exact (List.chain'_append.mp h.1).1
  · cases l with
    | nil => simp
    | cons a t => simpa using h.2

/-- In a chained queue ending in a non-Message entry, the entry before the
last one is not a `flush` marker. -/
theorem chain_last_before (l : List IPendingState) (x : IPendingState)
    (hc : (l ++ [x]).Chain' FlushBetween) (hx : isMessageState x = false) :
    l.getLast? ≠ some IPendingState.flush := by
  intro hlast
  rcases List.chain'_append.mp hc with ⟨h1, h2, hpair⟩
  have hfb := hpair IPendingState.flush (Option.mem_def.mpr hlast)
    x (Option.mem_def.mpr rfl)
  have := hfb.1 rfl
  rw [hx] at this
  exact Bool.false_ne_true this

/-- `onSubmit` (with a fresh client sequence number) preserves the C9
invariant: it appends a Message, which is a legal neighbour for anything. -/
theorem submit_invC9 (t : String) (c lm : Nat) (om : Option Nat)
    (s : PendingStateManager) (h : InvC9 s) :
    InvC9 (submitWithFreshCsn t c lm om s) := by
  refine ⟨flushOk_snoc_message _ _ h.1, ?_⟩
  intro hlast
  simp [submitWithFreshCsn, onSubmitMessage, List.getLast?_concat] at hlast

/-- A host-level `setFlushMode` preserves the C9 invariant. -/
theorem hostSetFlushMode_invC9 (m : FlushMode) (s : PendingStateManager)
    (h : InvC9 s) : InvC9 (hostSetFlushMode m s) := by
  unfold InvC9 hostSetFlushMode
  by_cases heq : s.containerRuntime.flushMode = m
  · simp only [if_pos heq]
    exact h
  · simp only [if_neg heq]
    unfold onFlushModeUpdated
    cases m with
    | Manual =>
      have htail : s.pendingStates.getLast? ≠ some IPendingState.flush := by
        intro hfl
        exact heq (h.2 hfl)
      simp only [reduceCtorEq, if_neg]
      refine ⟨flushOk_snoc_other _ _ h.1 (by simp) htail, ?_⟩
      simp [List.getLast?_concat]
    | Automatic =>
      rcases hlast : s.pendingStates.getLast? with _ | x
      · simp only [if_pos rfl, hlast]
        refine ⟨flushOk_snoc_other _ _ h.1 (by simp) (by simp [hlast]), ?_⟩
        simp [List.getLast?_concat]
      · cases x with
        | message pm =>
          simp only [if_pos rfl, hlast]
          refine ⟨flushOk_snoc_other _ _ h.1 (by simp) (by simp [hlast]), ?_⟩
          simp [List.getLast?_concat]
        | flushMode fm =>
          cases fm with
          | Automatic =>
            simp only [if_pos rfl, hlast]
            refine ⟨flushOk_snoc_other _ _ h.1 (by simp) (by simp [hlast]), ?_⟩
            simp [List.getLast?_concat]
          | Manual =>
            obtain ⟨l', hps⟩ := List.getLast?_eq_some_iff.mp hlast
            simp only [if_pos rfl, hlast]
            have hc : (l' ++ [IPendingState.flushMode FlushMode.Manual]).Chain'
                FlushBetween := by
              rw [← hps]
              exact h.1.1
            refine ⟨?_, ?_⟩
            · rw [hps, List.dropLast_concat]
              exact flushOk_of_snoc l' _ (by rw [← hps]; exact h.1)
            · intro hfl2
              rw [hps, List.dropLast_concat] at hfl2
              exact absurd hfl2 (chain_last_before l' _ hc (by rfl))
        | flush =>
          obtain ⟨l', hps⟩ := List.getLast?_eq_some_iff.mp hlast
          simp only [if_pos rfl, hlast]
          have hc : (l' ++ [IPendingState.flush]).Chain' FlushBetween := by
            rw [← hps]
            exact h.1.1
          have htl : l'.getLast? ≠ some IPendingState.flush :=
            chain_last_before l' _ hc (by rfl)
          refine ⟨?_, ?_⟩
          · rw [hps, List.dropLast_concat]
            exact flushOk_snoc_other l' _
              (flushOk_of_snoc l' _ (by rw [← hps]; exact h.1)) (by simp) htl
          · rw [hps, List.dropLast_concat]
            simp [List.getLast?_concat]

/-- A host-level `flush` preserves the C9 invariant: it pushes a `flush`
marker only after a Message and only in `Manual` mode. -/
theorem hostFlush_invC9 (s : PendingStateManager) (h : InvC9 s) :
    InvC9 (hostFlush s) := by
  unfold InvC9 hostFlush onFlush
  by_cases hm : s.containerRuntime.flushMode = FlushMode.Automatic
  · simp only [if_pos hm]
    exact h
  · simp only [if_neg hm]
    rcases hlast : s.pendingStates.getLast? with _ | x
    · exact h
    · cases x with
      | message pm =>
        refine ⟨flushOk_snoc_flush _ pm h.1 hlast, ?_⟩
        intro _
        cases hfm : s.containerRuntime.flushMode with
        | Automatic => exact absurd hfm hm
        | Manual => rfl
      | flushMode fm => exact h
      | flush => exact h

/-- One submission-side host command (submit, setFlushMode or flush)
preserves the C9 invariant. -/
theorem subCmd_invC9 (c : HostCmd) (hc : isSubmissionCmd c = true)
    (s s' : PendingStateManager) (h : InvC9 s)
    (hrun : runHostCmd c s = MRes.ok () s') : InvC9 s' := by
  cases c with
  | submit t cnt lom om =>
    simp only [runHostCmd, MRes.ok.injEq] at hrun
    rw [← hrun.2]
    exact submit_invC9 t cnt lom om s h
  | setFlushMode m =>
    simp only [runHostCmd, MRes.ok.injEq] at hrun
    rw [← hrun.2]
    exact hostSetFlushMode_invC9 m s h
  | flush =>
    simp only [runHostCmd, MRes.ok.injEq] at hrun
    rw [← hrun.2]
    exact hostFlush_invC9 s h
  | ack m l => simp [isSubmissionCmd] at hc
  | replay => simp [isSubmissionCmd] at hc
  | connect a b => simp [isSubmissionCmd] at hc

/-- A list of submission-side host commands preserves the C9 invariant. -/
theorem subCmds_invC9 (cmds : List HostCmd) :
    ∀ s s' : PendingStateManager, cmds.all isSubmissionCmd = true →
    InvC9 s → runHostCmds cmds s = MRes.ok () s' → InvC9 s' := by
  induction cmds with
  | nil =>
    intro s s' _ hinv hrun
    simp [runHostCmds] at hrun
    rw [← hrun]
    exact hinv
  | cons c cs ih =>
    intro s s' hall hinv hrun
    simp only [List.all_cons, Bool.and_eq_true] at hall
    rcases hstep : runHostCmd c s with ⟨u, s1⟩ | ⟨e, s1⟩
    · have hstep' : runHostCmd c s = MRes.ok () s1 := by
        cases u
        exact hstep
      have h1 := subCmd_invC9 c hall.1 s s1 hinv hstep'
      have hrest : runHostCmds cs s1 = MRes.ok () s' := by
        simpa [runHostCmds, hstep] using hrun
      exact ih s1 s' hall.2 h1 hrest
    · simp [runHostCmds, hstep] at hrun

/-- A local ack whose batch begins at a leading `flushMode: Manual` marker:
after it is processed the `flush` marker that ended the batch is left at the
head of the pending queue. -/
def c9Ack : ISequencedDocumentMessage :=
  { msgType := "op", clientId := some "X", clientSequenceNumber := 0,
    sequenceNumber := 1, batchMetadata := none }

/-- Manual mode, submit, flush, submit, then the matching local ack. -/
def c9Cmds : List HostCmd :=
  [HostCmd.setFlushMode FlushMode.Manual, HostCmd.submit "op" 5 7 none,
   HostCmd.flush, HostCmd.submit "op" 6 8 none, HostCmd.ack c9Ack true]

/-- The state `c9Cmds` reaches: a `flush` marker at the head of `pending`. -/
def c9Bad : PendingStateManager :=
  { pendingStates := [IPendingState.flush, IPendingState.message { messageType := "op", clientSequenceNumber := 1, referenceSequenceNumber := 0, content := 6, localOpMetadata := 8, opMetadata := none }],
    initialStates := [],
    initialClientId := none,
    initialClientSeqNum := -1,
    pendingMessagesCount := 1,
    isProcessingBatch := false,
    pendingBatchBeginMessage := none,
    clientId := none,
    containerRuntime := { connected := false, clientId := none, flushMode := FlushMode.Manual, nextClientSequenceNumber := 2, referenceSequenceNumber := 0, events := [] } }

/-- C9 counterexample: the "every FlushMarker appears only between Messages"
part fails over full reachability.  Processing the matching local ack of the
first Message consumes the batch-begin marker and the Message but deliberately
leaves the batch-ending `flush` marker in place (`maybeProcessBatchEnd` keeps
it for the next batch begin), so the reached state — with no error thrown and
`closeFn` never invoked — has a `flush` marker at the head of the pending
queue with no Message before it, even though a Message is still pending. -/
theorem C9_counterexample :
    runHostCmds c9Cmds (freshPSM rtA) = MRes.ok () c9Bad ∧
    closeFree c9Bad.containerRuntime.events = true ∧
    countMessages c9Bad.pendingStates = 1 ∧
    c9Bad.pendingStates.head? = some IPendingState.flush ∧
    ¬ FlushOk c9Bad.pendingStates :=
  ⟨by decide, by decide, by decide, by decide, by decide⟩

/-- C9 (amended): restricted to the submission side — every state reachable
from a freshly constructed core by `submit` / `setFlushMode` / `flush`
commands alone satisfies `FlushOk`: no `flush` marker is ever at the head of
the pending queue (in particular not before any Message is enqueued), every
`flush` marker has a Message immediately before it, and a non-tail `flush`
marker has a Message immediately after it (a tail marker gains one as soon as
the next op is submitted, since `FlushOk` is preserved and a submit appends a
Message).  Moreover `onFlush` is a no-op when the runtime flush mode is
`Automatic` or when the tail of the pending queue is not a Message. -/
theorem C9_amended (cmds : List HostCmd) (rt : RuntimeModel)
    (s' : PendingStateManager)
    (hall : cmds.all isSubmissionCmd = true)
    (hrun : runHostCmds cmds (freshPSM rt) = MRes.ok () s') :
    FlushOk s'.pendingStates ∧
    (∀ u : PendingStateManager,
      u.containerRuntime.flushMode = FlushMode.Automatic → onFlush u = u) ∧
    (∀ u : PendingStateManager,
      (∀ pm : IPendingMessage,
        u.pendingStates.getLast? ≠ some (IPendingState.message pm)) →
      onFlush u = u) := by
  refine ⟨?_, ?_, ?_⟩
  · have hinit : InvC9 (freshPSM rt) := by
      refine ⟨?_, ?_⟩
      · simp only [freshPSM, initPendingStateManager]
        exact flushOk_nil
      · simp [freshPSM, initPendingStateManager]
    exact (subCmds_invC9 cmds (freshPSM rt) s' hall hinit hrun).1
  · intro u hu
    simp [onFlush, hu]
  · intro u hu
    unfold onFlush
    by_cases hm : u.containerRuntime.flushMode = FlushMode.Automatic
    · simp [hm]
    · rcases hlast : u.pendingStates.getLast? with _ | x
      · simp [hm, hlast]
      · cases x with
        | message pm => exact absurd hlast (hu pm)
        | flushMode fm => simp [hm, hlast]
        | flush => simp [hm, hlast]

/-- Manual mode, submit, flush, submit, back to Automatic, then a flush that
must be a no-op. -/
def c9WCmds : List HostCmd :=
  [HostCmd.setFlushMode FlushMode.Manual, HostCmd.submit "op" 1 2 none,
   HostCmd.flush, HostCmd.submit "op" 3 4 none,
   HostCmd.setFlushMode FlushMode.Automatic, HostCmd.flush]

/-- The state `c9WCmds` reaches: the `flush` marker sits between the two
Messages and the final Automatic-mode flush was a no-op. -/
def c9WState : PendingStateManager :=
  { pendingStates := [IPendingState.flushMode FlushMode.Manual, IPendingState.message { messageType := "op", clientSequenceNumber := 0, referenceSequenceNumber := 0, content := 1, localOpMetadata := 2, opMetadata := none }, IPendingState.flush, IPendingState.message { messageType := "op", clientSequenceNumber := 1, referenceSequenceNumber := 0, content := 3, localOpMetadata := 4, opMetadata := none }, IPendingState.flushMode FlushMode.Automatic],
    initialStates := [],
    initialClientId := none,
    initialClientSeqNum := -1,
    pendingMessagesCount := 2,
    isProcessingBatch := false,
    pendingBatchBeginMessage := none,
    clientId := none,
    containerRuntime := { connected := false, clientId := none, flushMode := FlushMode.Automatic, nextClientSequenceNumber := 2, referenceSequenceNumber := 0, events := [] } }

/-- C9 witness: the amended statement evaluated on a concrete submission-side
session whose queue interleaves flush-mode markers, Messages and a `flush`
marker. -/
theorem C9_witness :
    c9WCmds.all isSubmissionCmd = true ∧
    runHostCmds c9WCmds (freshPSM rtA) = MRes.ok () c9WState ∧
    FlushOk c9WState.pendingStates :=
  ⟨by decide, by decide,
   (C9_amended c9WCmds rtA c9WState (by decide) (by decide)).1⟩

/-- When the head of the pending queue is a Message whose
clientSequenceNumber equals the ack's and the match-and-pop step returns
normally, the returned metadata is that Message's `localOpMetadata` and no
close was recorded (regardless of whether a batch is being processed). -/
theorem processLocalMatch_headMatch (ack : ISequencedDocumentMessage)
    (t : PendingStateManager) (m : IPendingMessage) (rest : List IPendingState)
    (meta : Option Nat) (s1 : PendingStateManager)
    (hp : t.pendingStates = IPendingState.message m :: rest)
    (h2 : m.clientSequenceNumber = ack.clientSequenceNumber)
    (hok : processLocalMatch ack t = MRes.ok meta s1) :
    meta = some m.localOpMetadata ∧
    s1.containerRuntime.events = t.containerRuntime.events := by
  rcases processLocalMatch_spec ack t with
      ⟨e, s', hpe, _⟩ | ⟨m', rest', s', heq, hcsn, hpm, hev⟩ |
      ⟨m', rest', s', heq, hcsn, hpm, hev⟩
  · rw [hok] at hpe
    simp at hpe
  · rw [hok] at hpm
    rw [hp] at heq
    simp only [List.cons.injEq, IPendingState.message.injEq] at heq
    obtain ⟨hm', hrest⟩ := heq
    simp only [MRes.ok.injEq] at hpm
    obtain ⟨hmeta, hs⟩ := hpm
    subst hm'
    exact ⟨hmeta, by rw [← hs] at hev; exact hev⟩
  · rw [hp] at heq
    simp only [List.cons.injEq, IPendingState.message.injEq] at heq
    obtain ⟨hm', _⟩ := heq
    subst hm'
    exact absurd h2 hcsn

/-- When the head of pending — after any batch-begin marker is consumed — is
a Message whose clientSequenceNumber equals the ack's and
`processPendingLocalMessage` returns normally, the returned metadata is that
Message's `localOpMetadata` and no close was recorded. -/
theorem processPendingLocalMessage_match (ack : ISequencedDocumentMessage)
    (s : PendingStateManager) (m : IPendingMessage) (meta : Option Nat)
    (s1 : PendingStateManager)
    (h1 : localHead s = some m)
    (h2 : m.clientSequenceNumber = ack.clientSequenceNumber)
    (hok : processPendingLocalMessage ack s = MRes.ok meta s1) :
    meta = some m.localOpMetadata ∧
    s1.containerRuntime.events = s.containerRuntime.events := by
  cases hp : s.pendingStates with
  | nil => simp [localHead, hp] at h1
  | cons x rest0 =>
    cases x with
    | message m0 =>
      have hm0 : m0 = m := by simpa [localHead, hp] using h1
      have hp' : s.pendingStates = IPendingState.message m :: rest0 := by
        rw [hp, hm0]
      have hbb : maybeProcessBatchBegin ack s = MRes.ok () s := by
        simp [maybeProcessBatchBegin, peekNextPendingState, hp]
      have hplm : processLocalMatch ack s = MRes.ok meta s1 := by
        simpa [processPendingLocalMessage, hbb] using hok
      exact processLocalMatch_headMatch ack s m rest0 meta s1 hp' h2 hplm
    | flushMode fm =>
      cases rest0 with
      | nil => simp [localHead, hp] at h1
      | cons y rest1 =>
        cases y with
        | message m1 =>
          have hm1 : m1 = m := by simpa [localHead, hp] using h1
          cases fm with
          | Automatic =>
            have hbb : maybeProcessBatchBegin ack s =
                MRes.error msgBeginManual s := by
              simp [maybeProcessBatchBegin, peekNextPendingState, hp]
            simp [processPendingLocalMessage, hbb] at hok
          | Manual =>
            by_cases hg : s.isProcessingBatch ∨ s.pendingBatchBeginMessage.isSome
            · have hbb : maybeProcessBatchBegin ack s =
                  MRes.error msgAlreadyInBatch s := by
                simp [maybeProcessBatchBegin, peekNextPendingState, hp,
                  batchBeginCore, hg]
              simp [processPendingLocalMessage, hbb] at hok
            · have hbb : maybeProcessBatchBegin ack s = MRes.ok ()
                  { s with pendingBatchBeginMessage := some ack
                           isProcessingBatch := true
                           pendingStates := IPendingState.message m1 :: rest1 } := by
                simp [maybeProcessBatchBegin, peekNextPendingState, hp,
                  batchBeginCore, hg]
              have hplm : processLocalMatch ack
                  { s with pendingBatchBeginMessage := some ack
                           isProcessingBatch := true
                           pendingStates := IPendingState.message m1 :: rest1 } =
                  MRes.ok meta s1 := by
                simpa [processPendingLocalMessage, hbb] using hok
              exact processLocalMatch_headMatch ack
                { s with pendingBatchBeginMessage := some ack
                         isProcessingBatch := true
                         pendingStates := IPendingState.message m1 :: rest1 }
                m rest1 meta s1 (by simp [hm1]) h2 hplm
        | flushMode fm2 => simp [localHead, hp] at h1
        | flush => simp [localHead, hp] at h1
    | flush =>
      cases rest0 with
      | nil => simp [localHead, hp] at h1
      | cons y rest1 =>
        cases y with
        | message m1 =>
          have hm1 : m1 = m := by simpa [localHead, hp] using h1
          by_cases hg : s.isProcessingBatch ∨ s.pendingBatchBeginMessage.isSome
          · have hbb : maybeProcessBatchBegin ack s =
                MRes.error msgAlreadyInBatch s := by
              simp [maybeProcessBatchBegin, peekNextPendingState, hp,
                batchBeginCore, hg]
            simp [processPendingLocalMessage, hbb] at hok
          · have hbb : maybeProcessBatchBegin ack s = MRes.ok ()
                { s with pendingBatchBeginMessage := some ack
                         isProcessingBatch := true
                         pendingStates := IPendingState.message m1 :: rest1 } := by
              simp [maybeProcessBatchBegin, peekNextPendingState, hp,
                batchBeginCore, hg]
            have hplm : processLocalMatch ack
                { s with pendingBatchBeginMessage := some ack
                         isProcessingBatch := true
                         pendingStates := IPendingState.message m1 :: rest1 } =
                MRes.ok meta s1 := by
              simpa [processPendingLocalMessage, hbb] using hok
            exact processLocalMatch_headMatch ack
              { s with pendingBatchBeginMessage := some ack
                       isProcessingBatch := true
                       pendingStates := IPendingState.message m1 :: rest1 }
              m rest1 meta s1 (by simp [hm1]) h2 hplm
        | flushMode fm2 => simp [localHead, hp] at h1
        | flush => simp [localHead, hp] at h1

/-- C1 (amended): for every ack processed with `isLocal = true` that passes
all checks — the head of pending (after any batch-begin marker is consumed)
is a Message whose clientSequenceNumber equals the ack's, and the call
returns normally — `processMessage` returns `{localAck: false,
localOpMetadata}` where `localOpMetadata` is that popped Message's
`localOpMetadata`, and no close is recorded.  This covers mid-batch and
batch-closing local acks: the source's local path hard-codes
`localAck: false`; `localAck: true` is produced only by the remote
rehydration-claim path. -/
theorem C1_amended (s : PendingStateManager) (ack : ISequencedDocumentMessage)
    (m : IPendingMessage) (r : ProcessResult) (s' : PendingStateManager)
    (h1 : localHead s = some m)
    (h2 : m.clientSequenceNumber = ack.clientSequenceNumber)
    (h3 : ack.msgType ≠ chunkedOpType)
    (h4 : processMessage ack true s = MRes.ok r s') :
    r = { localAck := false, localOpMetadata := some m.localOpMetadata } ∧
    s'.containerRuntime.events = s.containerRuntime.events := by
  rcases hpl : processPendingLocalMessage ack s with ⟨meta, s1⟩ | ⟨e, s1⟩
  · have h4' := h4
    simp only [processMessage, if_neg h3, if_pos rfl, hpl, if_true,
      MRes.ok.injEq] at h4'
    have hmain := processPendingLocalMessage_match ack s m meta s1 h1 h2 hpl
    refine ⟨?_, ?_⟩
    · rw [← h4'.1, hmain.1]
    · rw [← h4'.2]
      exact hmain.2
  · simp [processMessage, h3, hpl] at h4

/-- A core in Manual flush mode with two locally submitted ops: the pending
queue holds the batch-begin marker and the two Messages. -/
def c1BatchState : PendingStateManager :=
  submitWithFreshCsn "op" 6 8 none
    (submitWithFreshCsn "op" 5 7 none
      (hostSetFlushMode FlushMode.Manual (freshPSM rtA)))

/-- The result the mid-batch local ack returns. -/
def c1Res : ProcessResult := { localAck := false, localOpMetadata := some 7 }

/-- The state after the mid-batch local ack: the batch is still open and the
second Message is still pending. -/
def c1Post : PendingStateManager :=
  { pendingStates := [IPendingState.message { messageType := "op", clientSequenceNumber := 1, referenceSequenceNumber := 0, content := 6, localOpMetadata := 8, opMetadata := none }],
    initialStates := [],
    initialClientId := none,
    initialClientSeqNum := -1,
    pendingMessagesCount := 1,
    isProcessingBatch := true,
    pendingBatchBeginMessage := some { msgType := "op", clientId := some "c1", clientSequenceNumber := 0, sequenceNumber := 10, batchMetadata := none },
    clientId := none,
    containerRuntime := { connected := false, clientId := none, flushMode := FlushMode.Manual, nextClientSequenceNumber := 2, referenceSequenceNumber := 0, events := [] } }

/-- C1 witness: the amended statement evaluated on a mid-batch local ack —
the batch-begin marker is consumed, the matching Message is popped while the
batch stays open, and the returned metadata is the Message's. -/
theorem C1_witness :
    localHead c1BatchState = some c1Msg ∧
    processMessage c1Ack true c1BatchState = MRes.ok c1Res c1Post ∧
    (c1Res = { localAck := false, localOpMetadata := some c1Msg.localOpMetadata } ∧
     c1Post.containerRuntime.events = c1BatchState.containerRuntime.events) :=
  ⟨by decide, by decide,
   C1_amended c1BatchState c1Ack c1Msg c1Res c1Post (by decide) (by decide)
     (by decide) (by decide)⟩
